import Mathlib

/-!
Verification of the PyGMI 3D voxel-model core (pfmod): grid import,
model codec, model merge and raster blending, as implemented in
pygmi/pfmod/misc.py and pygmi/pfmod/iodefs.py.

Python floats are embedded as exact rationals, Python ints as Int,
numpy masked arrays as a value function together with a mask function,
and Python dicts as insertion-ordered association lists with unique keys.
-/

namespace Pygmi

/-- Truncation toward zero, the behaviour of Python int() on a float. -/
def pytrunc (q : ℚ) : Int := if q < 0 then -⌊-q⌋ else ⌊q⌋

/-- Python floor division a // b for floats. -/
def pyfdiv (a b : ℚ) : Int := ⌊a / b⌋

/-- Lookup in an insertion-ordered association list (Python dict read d[k]). -/
def alookup {α β : Type} [DecidableEq α] : List (α × β) → α → Option β
  | [], _ => none
  | (k', v) :: t, k => if k = k' then some v else alookup t k

/-- Python dict write d[k] = v: overwrite in place if the key exists,
else append at the end (insertion order). -/
def dinsert {α β : Type} [DecidableEq α] : List (α × β) → α → β → List (α × β)
  | [], k, v => [(k, v)]
  | (k', v') :: t, k, v =>
      if k = k' then (k', v) :: t else (k', v') :: dinsert t k v

/-- Mutate the value stored under a key in place (Python d[k].attr = ...). -/
def dupdate {α β : Type} [DecidableEq α] (l : List (α × β)) (k : α) (f : β → β) :
    List (α × β) :=
  l.map (fun p => if p.1 = k then (p.1, f p.2) else p)

/-- Python dict key removal (del d[k] / d.pop(k)). -/
def dremove {α β : Type} [DecidableEq α] (l : List (α × β)) (k : α) : List (α × β) :=
  l.filter (fun p => decide (p.1 ≠ k))

/-- Keys of a dict in insertion order (list(d.keys())). -/
def dkeys {α β : Type} (l : List (α × β)) : List α := l.map (·.1)

/-- Distinct values of a sequence in first-seen order.  This is what
np.unique(x, return_index=True)[1] followed by x[np.sort(idx)] computes
in import_ascii_xyz_model. -/
def firstSeenFrom {α : Type} [DecidableEq α] : List α → List α → List α
  | acc, [] => acc
  | acc, v :: t => firstSeenFrom (if v ∈ acc then acc else acc ++ [v]) t

/-- Distinct values in first-seen order starting from an empty accumulator. -/
def firstSeen {α : Type} [DecidableEq α] (l : List α) : List α := firstSeenFrom [] l

/-- Vector of consecutive differences, np.diff. -/
def diffs (l : List ℚ) : List ℚ := l.zipWith (fun a b => b - a) l.tail

/-- Maximum of a nonempty list of rationals (np.max); 0 on the empty list,
which the importers never reach because the preceding first-element access
has already raised. -/
def listMax (l : List ℚ) : ℚ := l.foldl max l.headI

/-- Minimum of a nonempty list of rationals (np.min); 0 on the empty list. -/
def listMin (l : List ℚ) : ℚ := l.foldl min l.headI

/-- Lexicographic comparison of strings by character code, the order
np.unique uses when it sorts a label column. -/
def strLt (a b : String) : Bool := go a.data b.data where
  go : List Char → List Char → Bool
  | [], [] => false
  | [], _ :: _ => true
  | _ :: _, [] => false
  | c :: cs, d :: ds => if c < d then true else if d < c then false else go cs ds

/-- Sorted distinct values of a label column, np.unique on strings. -/
def npUniqueStr (l : List String) : List String :=
  (firstSeen l).mergeSort (fun a b => ! strLt b a)

/-- An RGB colour triple, one entry of the mlut colour lookup table. -/
def Color := Int × Int × Int

instance : DecidableEq Color := by unfold Color; infer_instance

/-- The 3D lithology-index grid lith_index[col, row, layer]. -/
def Grid3 := Nat → Nat → Nat → Int

/-- Pointwise fancy-index assignment g[g == old] = new, as numpy boolean
mask assignment on the lithology grid. -/
def gridSubst (g : Grid3) (old new : Int) : Grid3 :=
  fun i j k => if g i j k = old then new else g i j k

/-- Single-cell write g[c, r, l] = v. -/
def gridWrite (g : Grid3) (c r l : Nat) (v : Int) : Grid3 :=
  fun i j k => if i = c ∧ j = r ∧ k = l then v else g i j k

/-- A 2D raster layer: a numpy masked array (values plus mask, mask true
meaning no data) with its geometry, taken from the Data class of
pygmi/pfmod/datatypes.py.  That file is not under src/; the fields are
exactly those that misc.py and iodefs.py read and write. -/
structure Raster2D where
  vals : Nat → Nat → ℚ
  msk : Nat → Nat → Bool
  nullvalue : ℚ
  tlx : ℚ
  tly : ℚ
  xdim : ℚ
  ydim : ℚ
  cols : Int
  rows : Int
  wkt : String
  dataid : String
  bandid : Option String := none

/-- Cell positions of a raster in row-major order. -/
def rasterCells (r : Raster2D) : List (Nat × Nat) :=
  (List.range r.rows.toNat).flatMap (fun i =>
    (List.range r.cols.toNat).map (fun j => (i, j)))

/-- Values of the valid (unmasked) cells of a raster in row-major order. -/
def validList (r : Raster2D) : List ℚ :=
  ((rasterCells r).filter (fun c => ! r.msk c.1 c.2)).map (fun c => r.vals c.1 c.2)

/-- Minimum over the valid (unmasked) cells, what data.data.min() returns
on a masked array; none when every cell is masked. -/
def validMin (r : Raster2D) : Option ℚ :=
  match validList r with
  | [] => none
  | v :: t => some (t.foldl min v)

/-- Maximum over the valid (unmasked) cells, data.data.max(). -/
def validMax (r : Raster2D) : Option ℚ :=
  match validList r with
  | [] => none
  | v :: t => some (t.foldl max v)

/-- The 1e20 sentinel gmerge installs as nullvalue on its outputs. -/
def bigNull : ℚ := 10 ^ 20

/-- A geo-transform tuple (origin x, cell x, 0, origin y, 0, -cell y),
the shape data_to_gdal_mem receives. -/
def GeoTr := ℚ × ℚ × ℚ × ℚ × ℚ × ℚ

/-- The opaque raster-reprojection capability: gdal.ReprojectImage between
two in-memory datasets.  It receives the source array (already filled with
the 0 no-data sentinel), the source geo-transform and extent, and the
destination geo-transform and extent, and yields the destination array.
The source and destination spatial references coincide in gmerge (both are
master.wkt), so the capability is purely geometric here. -/
def ReprojFn :=
  (Nat → Nat → ℚ) → GeoTr → Int → Int → GeoTr → Int → Int → (Nat → Nat → ℚ)

/-- First stage of the gmerge per-input pipeline, the in-place mutation of
the input Data object: compute the nonpositive offset, shift the valid
values by it, refill masked cells with 0, remask at 0, and set nullvalue
to 0.  Returns the mutated object and the offset.  The in-place shift on
the masked array touches only unmasked entries; masked entries are
immediately refilled with 0, so their previous contents never matter. -/
def gmergeShift (d : Raster2D) : Raster2D × ℚ :=
  let doffset : ℚ :=
    match validMin d with
    | some m => if m ≤ 0 then m - 1 else 0
    | none => 0
  let fv : Nat → Nat → ℚ := fun i j => if d.msk i j then 0 else d.vals i j - doffset
  ({ d with vals := fv
            msk := fun i j => decide (fv i j = 0)
            nullvalue := 0 }, doffset)

/-- Second stage of the per-input pipeline: reproject the shifted raster
onto the union grid, keep only values inside the [0.1, shifted-max + 1000]
window (np.ma.masked_outside), reverse the offset, and remask with the
1e20 fill (set_fill_value, filled, masked_equal).  dmax is
data.data.max() of the shifted input. -/
def gmergeReproject (rp : ReprojFn) (d : Raster2D) (doffset dmax : ℚ)
    (gtr : GeoTr) (cols rows : Int) : Raster2D :=
  let arr := rp d.vals (d.tlx, d.xdim, 0, d.tly, 0, -d.ydim) d.cols d.rows gtr cols rows
  let m1 : Nat → Nat → Bool :=
    fun i j => decide (arr i j < 1/10) || decide (dmax + 1000 < arr i j)
  let v2 : Nat → Nat → ℚ := fun i j => if m1 i j then bigNull else arr i j + doffset
  { vals := v2
    msk := fun i j => decide (v2 i j = bigNull)
    nullvalue := bigNull
    tlx := gtr.1
    tly := gtr.2.2.2.1
    xdim := d.xdim
    ydim := d.ydim
    cols := cols
    rows := rows
    wkt := d.wkt
    dataid := d.dataid }

/-- Final combine: where master is masked and slave is not, take slave's
underlying value and clear the mask.  The source guards this with
imask.size > 1, where size is the total element count of the union grid,
so a single-cell union grid skips the substitution entirely. -/
def gmergeCombine (d0 d1 : Raster2D) (cols rows : Int) : Raster2D :=
  if cols * rows ≤ 1 then d0
  else
    { d0 with
      vals := fun i j => if d0.msk i j && ! d1.msk i j then d1.vals i j else d0.vals i j
      msk := fun i j => if d0.msk i j && ! d1.msk i j then false else d0.msk i j }

/-- The gmerge routine of pygmi/pfmod/misc.py.  Returns the blended raster
together with the post-call states of the two input objects, which the
routine mutates in place (the first pipeline stage).  When either range
argument is None it returns the master input untouched. -/
def gmerge (rp : ReprojFn) (master slave : Raster2D)
    (xr yr : Option (ℚ × ℚ)) : Raster2D × Raster2D × Raster2D :=
  match xr, yr with
  | some xrange, some yrange =>
      let xdim := master.xdim
      let ydim := master.ydim
      let cols := pyfdiv (xrange.2 - xrange.1) xdim + 1
      let rows := pyfdiv (yrange.2 - yrange.1) ydim + 1
      let gtr : GeoTr := (xrange.1, xdim, 0, yrange.2, 0, -ydim)
      let mp := gmergeShift master
      let sp := gmergeShift slave
      let mmax := (validMax mp.1).getD 0
      let smax := (validMax sp.1).getD 0
      let d0 := gmergeReproject rp mp.1 mp.2 mmax gtr cols rows
      let d1 := gmergeReproject rp sp.1 sp.2 smax gtr cols rows
      (gmergeCombine d0 d1 cols rows, mp.1, sp.1)
  | _, _ => (master, master, slave)

/-- Identity reprojection: the behaviour of the bilinear reprojection
capability when source and destination geometry coincide. -/
def idReproj : ReprojFn := fun a _ _ _ _ _ _ => a

theorem foldl_max_init_le (l : List ℚ) (a : ℚ) : a ≤ l.foldl max a := by
  induction l generalizing a with
  | nil => exact le_refl a
  | cons c t ih => exact le_trans (le_max_left a c) (ih (max a c))

theorem foldl_max_of_mem (l : List ℚ) (a v : ℚ) (hv : v ∈ l) :
    v ≤ l.foldl max a := by
  induction l generalizing a with
  | nil => cases hv
  | cons d t ih =>
      rcases List.mem_cons.mp hv with h | h
      · subst h
        exact le_trans (le_max_right a v) (foldl_max_init_le t (max a v))
      · exact ih (max a d) h

theorem mem_rasterCells (r : Raster2D) (i j : Nat) :
    (i, j) ∈ rasterCells r ↔ i < r.rows.toNat ∧ j < r.cols.toNat := by
  unfold rasterCells
  simp only [List.mem_flatMap, List.mem_map, List.mem_range]
  constructor
  · rintro ⟨a, ha, b, hb, h⟩
    obtain ⟨h1, h2⟩ := Prod.mk.injEq .. ▸ h
    exact ⟨h1 ▸ ha, h2 ▸ hb⟩
  · rintro ⟨hi, hj⟩
    exact ⟨i, hi, j, hj, rfl⟩

theorem mem_validList (r : Raster2D) (i j : Nat) (hi : i < r.rows.toNat)
    (hj : j < r.cols.toNat) (hv : r.msk i j = false) :
    r.vals i j ∈ validList r := by
  unfold validList
  refine List.mem_map.mpr ⟨(i, j), List.mem_filter.mpr ⟨?_, ?_⟩, rfl⟩
  · exact (mem_rasterCells r i j).mpr ⟨hi, hj⟩
  · simp [hv]

theorem validMax_ge (r : Raster2D) (v : ℚ) (hv : v ∈ validList r) :
    ∃ m, validMax r = some m ∧ v ≤ m := by
  unfold validMax
  rcases hfl : validList r with _ | ⟨c, t⟩
  · rw [hfl] at hv; cases hv
  · rw [hfl] at hv
    rcases List.mem_cons.mp hv with h | h
    · subst h
      exact ⟨_, rfl, foldl_max_init_le t v⟩
    · exact ⟨_, rfl, foldl_max_of_mem t c v h⟩

theorem gmergeShift_geom (d : Raster2D) :
    (gmergeShift d).1.tlx = d.tlx ∧ (gmergeShift d).1.tly = d.tly ∧
    (gmergeShift d).1.xdim = d.xdim ∧ (gmergeShift d).1.ydim = d.ydim ∧
    (gmergeShift d).1.cols = d.cols ∧ (gmergeShift d).1.rows = d.rows :=
  ⟨rfl, rfl, rfl, rfl, rfl, rfl⟩

theorem gmergeShift_vals_valid (d : Raster2D) (i j : Nat) (hm : d.msk i j = false) :
    (gmergeShift d).1.vals i j = d.vals i j - (gmergeShift d).2 := by
  simp [gmergeShift, hm]

theorem gmergeShift_msk_valid (d : Raster2D) (i j : Nat) (hm : d.msk i j = false)
    (hlow : 1/10 ≤ d.vals i j - (gmergeShift d).2) :
    (gmergeShift d).1.msk i j = false := by
  have hne : d.vals i j - (gmergeShift d).2 ≠ 0 := by
    intro h0
    rw [h0] at hlow
    norm_num at hlow
  simp [gmergeShift, hm]
  simpa [gmergeShift] using hne

theorem gmergeShift_masked (d : Raster2D) (i j : Nat) (hm : d.msk i j = true) :
    (gmergeShift d).1.vals i j = 0 ∧ (gmergeShift d).1.msk i j = true := by
  constructor
  · simp [gmergeShift, hm]
  · simp [gmergeShift, hm]

/-- In the reprojection stage with coinciding source and destination
geometry (the identity case of the capability), a cell that was valid
after the shift and whose shifted value clears the 0.1 threshold comes
back with its original value restored and unmasked. -/
theorem pipeline_valid_cell (rp : ReprojFn) (d : Raster2D) (gtr : GeoTr)
    (cols rows : Int)
    (hrp : ∀ a g c r, rp a g c r g c r = a)
    (hg : gtr = (d.tlx, d.xdim, 0, d.tly, 0, -d.ydim))
    (hc : cols = d.cols) (hr : rows = d.rows)
    (i j : Nat) (hi : i < d.rows.toNat) (hj : j < d.cols.toNat)
    (hm : d.msk i j = false)
    (hlow : 1/10 ≤ d.vals i j - (gmergeShift d).2)
    (hnull : d.vals i j ≠ bigNull) :
    (gmergeReproject rp (gmergeShift d).1 (gmergeShift d).2
        ((validMax (gmergeShift d).1).getD 0) gtr cols rows).vals i j = d.vals i j
    ∧ (gmergeReproject rp (gmergeShift d).1 (gmergeShift d).2
        ((validMax (gmergeShift d).1).getD 0) gtr cols rows).msk i j = false := by
  have hmsk1 : (gmergeShift d).1.msk i j = false := gmergeShift_msk_valid d i j hm hlow
  have hv1 : (gmergeShift d).1.vals i j = d.vals i j - (gmergeShift d).2 :=
    gmergeShift_vals_valid d i j hm
  have hmem : (gmergeShift d).1.vals i j ∈ validList (gmergeShift d).1 :=
    mem_validList _ i j hi hj hmsk1
  obtain ⟨mx, hmx, hle⟩ := validMax_ge _ _ hmem
  have hmax : ((validMax (gmergeShift d).1).getD 0) = mx := by rw [hmx]; rfl
  have harr : rp (gmergeShift d).1.vals
      ((gmergeShift d).1.tlx, (gmergeShift d).1.xdim, 0, (gmergeShift d).1.tly, 0,
        -(gmergeShift d).1.ydim) (gmergeShift d).1.cols (gmergeShift d).1.rows
      gtr cols rows = (gmergeShift d).1.vals := by
    obtain ⟨h1, h2, h3, h4, h5, h6⟩ := gmergeShift_geom d
    rw [h1, h2, h3, h4, h5, h6, ← hg, ← hc, ← hr]
    exact hrp _ _ _ _
  have hwin1 : ¬ ((gmergeShift d).1.vals i j < 1/10) := by
    rw [hv1]; exact not_lt.mpr hlow
  have hwin2 : ¬ (((validMax (gmergeShift d).1).getD 0) + 1000 <
      (gmergeShift d).1.vals i j) := by
    rw [hmax, hv1]
    rw [hv1] at hle
    have : d.vals i j - (gmergeShift d).2 ≤ mx + 1000 := by linarith
    exact not_lt.mpr this
  constructor
  · simp only [gmergeReproject, harr]
    rw [if_neg]
    · rw [hv1]; ring
    · simp only [Bool.or_eq_true, decide_eq_true_eq, not_or]
      exact ⟨hwin1, hwin2⟩
  · simp only [gmergeReproject, harr]
    have hval : (if
        (decide ((gmergeShift d).1.vals i j < 1/10) ||
          decide (((validMax (gmergeShift d).1).getD 0) + 1000 <
            (gmergeShift d).1.vals i j)) = true
        then bigNull else (gmergeShift d).1.vals i j + (gmergeShift d).2)
        = d.vals i j := by
      rw [if_neg]
      · rw [hv1]; ring
      · simp only [Bool.or_eq_true, decide_eq_true_eq, not_or]
        exact ⟨hwin1, hwin2⟩
    simp only [hval]
    exact decide_eq_false hnull

/-- In the same identity-geometry setting, a cell masked in the input is
still masked (with the 1e20 fill) after the reprojection stage: its
refilled value 0 falls below the 0.1 no-data threshold. -/
theorem pipeline_masked_cell (rp : ReprojFn) (d : Raster2D) (gtr : GeoTr)
    (cols rows : Int)
    (hrp : ∀ a g c r, rp a g c r g c r = a)
    (hg : gtr = (d.tlx, d.xdim, 0, d.tly, 0, -d.ydim))
    (hc : cols = d.cols) (hr : rows = d.rows)
    (i j : Nat) (hm : d.msk i j = true) :
    (gmergeReproject rp (gmergeShift d).1 (gmergeShift d).2
        ((validMax (gmergeShift d).1).getD 0) gtr cols rows).vals i j = bigNull
    ∧ (gmergeReproject rp (gmergeShift d).1 (gmergeShift d).2
        ((validMax (gmergeShift d).1).getD 0) gtr cols rows).msk i j = true := by
  obtain ⟨hv0, _⟩ := gmergeShift_masked d i j hm
  have harr : rp (gmergeShift d).1.vals
      ((gmergeShift d).1.tlx, (gmergeShift d).1.xdim, 0, (gmergeShift d).1.tly, 0,
        -(gmergeShift d).1.ydim) (gmergeShift d).1.cols (gmergeShift d).1.rows
      gtr cols rows = (gmergeShift d).1.vals := by
    obtain ⟨h1, h2, h3, h4, h5, h6⟩ := gmergeShift_geom d
    rw [h1, h2, h3, h4, h5, h6, ← hg, ← hc, ← hr]
    exact hrp _ _ _ _
  have hwin : ((gmergeShift d).1.vals i j < 1/10) := by
    rw [hv0]; norm_num
  have hcond : (decide ((gmergeShift d).1.vals i j < 1/10) ||
      decide (((validMax (gmergeShift d).1).getD 0) + 1000 <
        (gmergeShift d).1.vals i j)) = true := by
    simp only [Bool.or_eq_true, decide_eq_true_eq]
    exact Or.inl hwin
  constructor
  · simp only [gmergeReproject, harr]
    rw [if_pos hcond]
  · simp only [gmergeReproject, harr]
    rw [if_pos hcond]
    simp

/-- C5 (amended): for two rasters already on the union footprint (identical
geometry, with ranges reproducing that footprint so the reprojection is the
identity), and provided the union grid has more than one cell (the
imask.size > 1 guard) and each input's valid values clear the 0.1 no-data
window after the positivity shift and differ from the 1e20 fill, the blend
takes master's value wherever master is valid, substitutes slave's value
exactly where master is masked and slave is not, and leaves cells masked in
both still masked. -/
theorem gmerge_union_blend (rp : ReprojFn) (master slave : Raster2D)
    (xrange yrange : ℚ × ℚ)
    (hrp : ∀ a g c r, rp a g c r g c r = a)
    (hx : xrange.1 = master.tlx) (hy : yrange.2 = master.tly)
    (hcols : pyfdiv (xrange.2 - xrange.1) master.xdim + 1 = master.cols)
    (hrows : pyfdiv (yrange.2 - yrange.1) master.ydim + 1 = master.rows)
    (hstlx : slave.tlx = master.tlx) (hstly : slave.tly = master.tly)
    (hsx : slave.xdim = master.xdim) (hsy : slave.ydim = master.ydim)
    (hsc : slave.cols = master.cols) (hsr : slave.rows = master.rows)
    (hsize : 1 < master.cols * master.rows)
    (i j : Nat) (hi : i < master.rows.toNat) (hj : j < master.cols.toNat)
    (hMlow : master.msk i j = false → 1/10 ≤ master.vals i j - (gmergeShift master).2)
    (hMnull : master.msk i j = false → master.vals i j ≠ bigNull)
    (hSlow : slave.msk i j = false → 1/10 ≤ slave.vals i j - (gmergeShift slave).2)
    (hSnull : slave.msk i j = false → slave.vals i j ≠ bigNull) :
    (master.msk i j = false →
      (gmerge rp master slave (some xrange) (some yrange)).1.vals i j = master.vals i j ∧
      (gmerge rp master slave (some xrange) (some yrange)).1.msk i j = false)
    ∧ (master.msk i j = true → slave.msk i j = false →
      (gmerge rp master slave (some xrange) (some yrange)).1.vals i j = slave.vals i j ∧
      (gmerge rp master slave (some xrange) (some yrange)).1.msk i j = false)
    ∧ (master.msk i j = true → slave.msk i j = true →
      (gmerge rp master slave (some xrange) (some yrange)).1.msk i j = true) := by
  have hG : gmerge rp master slave (some xrange) (some yrange) =
      (gmergeCombine
        (gmergeReproject rp (gmergeShift master).1 (gmergeShift master).2
          ((validMax (gmergeShift master).1).getD 0)
          (xrange.1, master.xdim, 0, yrange.2, 0, -master.ydim)
          (pyfdiv (xrange.2 - xrange.1) master.xdim + 1)
          (pyfdiv (yrange.2 - yrange.1) master.ydim + 1))
        (gmergeReproject rp (gmergeShift slave).1 (gmergeShift slave).2
          ((validMax (gmergeShift slave).1).getD 0)
          (xrange.1, master.xdim, 0, yrange.2, 0, -master.ydim)
          (pyfdiv (xrange.2 - xrange.1) master.xdim + 1)
          (pyfdiv (yrange.2 - yrange.1) master.ydim + 1))
        (pyfdiv (xrange.2 - xrange.1) master.xdim + 1)
        (pyfdiv (yrange.2 - yrange.1) master.ydim + 1),
       (gmergeShift master).1, (gmergeShift slave).1) := rfl
  rw [hG]
  have hMgeo : (xrange.1, master.xdim, (0:ℚ), yrange.2, (0:ℚ), -master.ydim)
      = (master.tlx, master.xdim, (0:ℚ), master.tly, (0:ℚ), -master.ydim) := by
    rw [hx, hy]
  have hSgeo : (xrange.1, master.xdim, (0:ℚ), yrange.2, (0:ℚ), -master.ydim)
      = (slave.tlx, slave.xdim, (0:ℚ), slave.tly, (0:ℚ), -slave.ydim) := by
    rw [hx, hy, hstlx, hstly, hsx, hsy]
  have hC : pyfdiv (xrange.2 - xrange.1) master.xdim + 1 = master.cols := hcols
  have hR : pyfdiv (yrange.2 - yrange.1) master.ydim + 1 = master.rows := hrows
  have hnotle : ¬ ((pyfdiv (xrange.2 - xrange.1) master.xdim + 1) *
      (pyfdiv (yrange.2 - yrange.1) master.ydim + 1) ≤ 1) := by
    rw [hC, hR]
    exact not_le.mpr hsize
  have hcomb : ∀ d0 d1 : Raster2D, gmergeCombine d0 d1
      (pyfdiv (xrange.2 - xrange.1) master.xdim + 1)
      (pyfdiv (yrange.2 - yrange.1) master.ydim + 1) =
      { d0 with
        vals := fun i j => if d0.msk i j && ! d1.msk i j then d1.vals i j else d0.vals i j
        msk := fun i j => if d0.msk i j && ! d1.msk i j then false else d0.msk i j } := by
    intro d0 d1
    unfold gmergeCombine
    rw [if_neg hnotle]
  rw [hcomb]
  have hi' : i < slave.rows.toNat := by rw [hsr]; exact hi
  have hj' : j < slave.cols.toNat := by rw [hsc]; exact hj
  have hCs : pyfdiv (xrange.2 - xrange.1) master.xdim + 1 = slave.cols := by
    rw [hsc]; exact hC
  have hRs : pyfdiv (yrange.2 - yrange.1) master.ydim + 1 = slave.rows := by
    rw [hsr]; exact hR
  refine ⟨?_, ?_, ?_⟩
  · intro hm
    obtain ⟨hd0v, hd0m⟩ := pipeline_valid_cell rp master _ _ _ hrp hMgeo hC hR
      i j hi hj hm (hMlow hm) (hMnull hm)
    refine ⟨?_, ?_⟩
    · dsimp only
      rw [hd0m, hd0v]
      simp
    · dsimp only
      rw [hd0m]
      simp
  · intro hm hs
    obtain ⟨hd0v, hd0m⟩ := pipeline_masked_cell rp master _ _ _ hrp hMgeo hC hR i j hm
    obtain ⟨hd1v, hd1m⟩ := pipeline_valid_cell rp slave _ _ _ hrp hSgeo hCs hRs
      i j hi' hj' hs (hSlow hs) (hSnull hs)
    refine ⟨?_, ?_⟩
    · dsimp only
      rw [hd0m, hd1m, hd1v]
      simp
    · dsimp only
      rw [hd0m, hd1m]
      simp
  · intro hm hs
    obtain ⟨hd0v, hd0m⟩ := pipeline_masked_cell rp master _ _ _ hrp hMgeo hC hR i j hm
    obtain ⟨hd1v, hd1m⟩ := pipeline_masked_cell rp slave _ _ _ hrp hSgeo hCs hRs i j hs
    dsimp only
    rw [hd0m, hd1m]
    simp

/-- A 1-row, 2-column master raster, valid with value 1/20 at column 0 and
masked at column 1.  Its valid minimum 1/20 is positive, so gmerge applies
no offset shift, and 1/20 falls below the 0.1 no-data window. -/
def exMaster : Raster2D where
  vals := fun i j => if i = 0 ∧ j = 0 then 1/20 else 5
  msk := fun i j => decide (¬ (i = 0 ∧ j = 0))
  nullvalue := 10 ^ 20
  tlx := 0
  tly := 1
  xdim := 1
  ydim := 1
  cols := 2
  rows := 1
  wkt := ""
  dataid := "m"

/-- A fully valid slave raster with the same footprint as exMaster,
carrying the value 7 everywhere. -/
def exSlave : Raster2D where
  vals := fun _ _ => 7
  msk := fun _ _ => false
  nullvalue := 10 ^ 20
  tlx := 0
  tly := 1
  xdim := 1
  ydim := 1
  cols := 2
  rows := 1
  wkt := ""
  dataid := "s"

/-- C5 counterexample: master and slave share an identical footprint, master
is masked exactly in R = the second column and valid with value 1/20 outside
R, the reprojection is the identity, yet gmerge replaces master's valid
value at cell (0,0) with slave's 7: an unshifted valid value below the 0.1
no-data window is spuriously masked and then filled from slave, so
master's original values are not preserved outside R and the cell where
master is valid does not take master's value. -/
theorem gmerge_preserve_counterexample :
    exMaster.msk 0 0 = false ∧ exMaster.vals 0 0 = 1/20 ∧
    (gmerge idReproj exMaster exSlave (some (0, 3/2)) (some (1/2, 1))).1.vals 0 0 = 7 ∧
    (gmerge idReproj exMaster exSlave (some (0, 3/2)) (some (1/2, 1))).1.msk 0 0 = false := by
  refine ⟨rfl, by norm_num [exMaster], ?_, ?_⟩
  · norm_num [gmerge, gmergeCombine, gmergeReproject, gmergeShift, idReproj,
      validMax, validMin, validList, rasterCells, exMaster, exSlave, pyfdiv, bigNull,
      List.range_succ, show Int.toNat 2 = 2 from rfl, show Int.toNat 1 = 1 from rfl]
  · norm_num [gmerge, gmergeCombine, gmergeReproject, gmergeShift, idReproj,
      validMax, validMin, validList, rasterCells, exMaster, exSlave, pyfdiv, bigNull,
      List.range_succ, show Int.toNat 2 = 2 from rfl, show Int.toNat 1 = 1 from rfl]

/-- A 1-row, 2-column master raster, valid with value 5 at column 0 and
masked at column 1, whose valid values clear the 0.1 window. -/
def wMaster : Raster2D where
  vals := fun i j => if i = 0 ∧ j = 0 then 5 else 9
  msk := fun i j => decide (¬ (i = 0 ∧ j = 0))
  nullvalue := 10 ^ 20
  tlx := 0
  tly := 1
  xdim := 1
  ydim := 1
  cols := 2
  rows := 1
  wkt := ""
  dataid := "w"

theorem gmerge_union_blend_witness :
    (gmerge idReproj wMaster exSlave (some (0, 3/2)) (some (1/2, 1))).1.vals 0 0 = 5 ∧
    (gmerge idReproj wMaster exSlave (some (0, 3/2)) (some (1/2, 1))).1.msk 0 0 = false ∧
    (gmerge idReproj wMaster exSlave (some (0, 3/2)) (some (1/2, 1))).1.vals 0 1 = 7 ∧
    (gmerge idReproj wMaster exSlave (some (0, 3/2)) (some (1/2, 1))).1.msk 0 1 = false := by
  have h0 := gmerge_union_blend idReproj wMaster exSlave (0, 3/2) (1/2, 1)
    (fun _ _ _ _ => rfl) rfl rfl (by norm_num [pyfdiv, wMaster])
    (by norm_num [pyfdiv, wMaster]) rfl rfl rfl rfl rfl rfl
    (by norm_num [wMaster, exSlave]) 0 0 (by decide) (by decide)
    (fun _ => by norm_num [gmergeShift, validMin, validList, rasterCells, wMaster,
      List.range_succ, show Int.toNat 2 = 2 from rfl, show Int.toNat 1 = 1 from rfl])
    (fun _ => by norm_num [wMaster, bigNull])
    (fun _ => by norm_num [gmergeShift, validMin, validList, rasterCells, exSlave,
      List.range_succ, show Int.toNat 2 = 2 from rfl, show Int.toNat 1 = 1 from rfl])
    (fun _ => by norm_num [exSlave, bigNull])
  have h1 := gmerge_union_blend idReproj wMaster exSlave (0, 3/2) (1/2, 1)
    (fun _ _ _ _ => rfl) rfl rfl (by norm_num [pyfdiv, wMaster])
    (by norm_num [pyfdiv, wMaster]) rfl rfl rfl rfl rfl rfl
    (by norm_num [wMaster, exSlave]) 0 1 (by decide) (by decide)
    (fun _ => by norm_num [gmergeShift, validMin, validList, rasterCells, wMaster,
      List.range_succ, show Int.toNat 2 = 2 from rfl, show Int.toNat 1 = 1 from rfl])
    (fun _ => by norm_num [wMaster, bigNull])
    (fun _ => by norm_num [gmergeShift, validMin, validList, rasterCells, exSlave,
      List.range_succ, show Int.toNat 2 = 2 from rfl, show Int.toNat 1 = 1 from rfl])
    (fun _ => by norm_num [exSlave, bigNull])
  obtain ⟨hv0, hm0⟩ := h0.1 rfl
  obtain ⟨hv1, hm1⟩ := h1.2.1 rfl rfl
  refine ⟨?_, hm0, ?_, hm1⟩
  · rw [hv0]; norm_num [wMaster]
  · rw [hv1]; norm_num [exSlave]

/-- C10: calling gmerge with the xrange argument or the yrange argument
equal to None returns the master raster object unchanged, and neither
input is mutated: no offset shift, no refill or remasking, no
reprojection and no blending take place. -/
theorem gmerge_none_returns_master (rp : ReprojFn) (m s : Raster2D)
    (o : Option (ℚ × ℚ)) :
    gmerge rp m s none o = (m, m, s) ∧ gmerge rp m s o none = (m, m, s) := by
  refine ⟨?_, ?_⟩ <;> cases o <;> rfl

/-! The voxel model: per-lithology records, the model itself, and the grid
update.  The GeoData class lives in pygmi/pfmod/grvmag3d.py and the
LithModel class in pygmi/pfmod/datatypes.py; neither module is under src/,
so both are modelled from the spec, with exactly the fields that misc.py
and iodefs.py read and write. -/

/-- Modelled from the spec: the GeoData per-lithology record of
pygmi/pfmod/grvmag3d.py (not under src/): magnetic and density physical
properties, the lithology's integer index, and its own grid
column/row/spacing metadata (spec section 3), one horizontal spacing
(persisted as the _dxy record field) and one vertical spacing.  The field
written as qrat here is named qratio in the source.  Field defaults stand
in for the constructor defaults of the missing module; no claim depends
on their values. -/
structure GeoData where
  hintn : ℚ := 30000
  finc : ℚ := -63
  fdec : ℚ := -17
  zobsm : ℚ := 0
  susc : ℚ := 1/100
  mstrength : ℚ := 0
  qrat : ℚ := 1
  minc : ℚ := -63
  mdec : ℚ := -17
  density : ℚ := 28/10
  bdensity : ℚ := 28/10
  lith_index : Int := 0
  g_cols : Int := 10
  g_rows : Int := 10
  numz : Int := 10
  g_dxy : ℚ := 100
  d_z : ℚ := 100
  zobsg : ℚ := 0
  x12 : ℚ × ℚ := (0, 0)
  y12 : ℚ × ℚ := (0, 0)
  z12 : ℚ × ℚ := (0, 0)
  modified : Bool := false
deriving DecidableEq

/-- Modelled from the spec: set_xyz12 caches the bounding box of the
lithology's own sub-grid from its column/row/spacing metadata; it writes
only the x12/y12/z12 fields. -/
def setXyz12 (g : GeoData) : GeoData :=
  { g with x12 := (0, (g.g_cols : ℚ) * g.g_dxy)
           y12 := (0, (g.g_rows : ℚ) * g.g_dxy)
           z12 := (-((g.numz : ℚ) * g.d_z), 0) }

/-- Modelled from the spec: the GeoData constructor call
GeoData(parent, ncols, nrows, numz, dxy, d_z) the importers make. -/
def mkGeoData (ncols nrows nz : Int) (dxy d_z : ℚ) : GeoData :=
  { g_cols := ncols, g_rows := nrows, numz := nz, g_dxy := dxy, d_z := d_z }

/-- The voxel model, the LithModel class of pygmi/pfmod/datatypes.py
(not under src/): the 3D lithology-index grid with its extent and spacing,
the lithology catalogue, the colour lookup table, the named raster layers
and the custom-profile anchors (spec section 3).  Dicts are
insertion-ordered association lists. -/
structure LithModel where
  gregional : ℚ := 100
  ght : ℚ := 0
  mht : ℚ := 0
  numx : Int := 0
  numy : Int := 0
  numz : Int := 0
  dxy : ℚ := 0
  d_z : ℚ := 0
  lith_index : Grid3 := fun _ _ _ => -1
  xrange : ℚ × ℚ := (0, 0)
  yrange : ℚ × ℚ := (0, 0)
  zrange : ℚ × ℚ := (0, 0)
  curprof : Int := 0
  curlayer : Int := 0
  mlut : List (Int × Color) := []
  lith_list : List (String × GeoData) := []
  lith_list_reverse : List (Int × String) := []
  griddata : List (String × Raster2D) := []
  custprofx : List (Int × (ℚ × ℚ)) := []
  custprofy : List (Int × (ℚ × ℚ)) := []
  name : String := ""

/-- Modelled from the spec: LithModel.update of pygmi/pfmod/datatypes.py
(not under src/) when the model already holds a grid, as in the merge:
install the new dimensions, spacing and extents from the given top-left
corner (spec section 3: y and z are stored top-down, and numx times dxy
spans xrange), and resample the existing grid onto the new extent - a new
cell reads the old cell whose footprint contains its centre, and cells
outside the old footprint become 0 (spec section 4.3 step 3).  The usedtm
flag drives DTM surface trimming in the GUI and is passed as False by the
merge; it is ignored here. -/
def update (m : LithModel) (cols rows layers : Int) (utlx utly utlz : ℚ)
    (dxy d_z : ℚ) : LithModel :=
  { m with
    numx := cols, numy := rows, numz := layers
    dxy := dxy, d_z := d_z
    xrange := (utlx, utlx + cols * dxy)
    yrange := (utly - rows * dxy, utly)
    zrange := (utlz - layers * d_z, utlz)
    lith_index := fun i j k =>
      let x : ℚ := utlx + ((i : ℚ) + 1/2) * dxy
      let y : ℚ := utly - ((j : ℚ) + 1/2) * dxy
      let z : ℚ := utlz - ((k : ℚ) + 1/2) * d_z
      let i' : Int := ⌊(x - m.xrange.1) / m.dxy⌋
      let j' : Int := ⌊(m.yrange.2 - y) / m.dxy⌋
      let k' : Int := ⌊(m.zrange.2 - z) / m.d_z⌋
      if 0 ≤ i' ∧ i' < m.numx ∧ 0 ≤ j' ∧ j' < m.numy ∧ 0 ≤ k' ∧ k' < m.numz
      then m.lith_index i'.toNat j'.toNat k'.toNat
      else 0 }

/-- Modelled from the spec: LithModel.update when the importers call it
right after resetting lith_index to None: same extent bookkeeping, but a
fresh grid holding the -1 unset sentinel everywhere (spec section 4.1
step 6). -/
def updateFresh (m : LithModel) (cols rows layers : Int) (utlx utly utlz : ℚ)
    (dxy d_z : ℚ) : LithModel :=
  { update m cols rows layers utlx utly utlz dxy d_z with
    lith_index := fun _ _ _ => -1 }

/-- The update_lith_list_reverse method: rebuild the index-to-name map. -/
def updateReverse (m : LithModel) : LithModel :=
  { m with lith_list_reverse := m.lith_list.map (fun p => (p.2.lith_index, p.1)) }

/-- Python exception kinds the embedded routines can surface.  The
degenerateAxis constructor is Modelled from the spec: the DegenerateAxis
error of spec section 7; no code path under src/ raises it. -/
inductive PyErr
  | indexError
  | keyError
  | degenerateAxis
deriving DecidableEq

/-- Per-axis cell-size analysis of import_ascii_xyz_model: distinct values
in first-seen order, consecutive differences, sign-normalisation keyed on
the first difference, then the maximum difference.  Reading the first
element of an empty difference vector is the IndexError the source raises
when an axis has a single distinct value. -/
def axisCell (vals : List ℚ) : Except PyErr ℚ :=
  let d := diffs (firstSeen vals)
  match d.head? with
  | none => Except.error PyErr.indexError
  | some h =>
      Except.ok (listMax (if h < 0 then d.map (fun q => -q) else d))

/-- One sample row of a scatter or block-model source. -/
def Sample := ℚ × ℚ × ℚ × String

/-- Zip the coordinate and label columns into sample rows. -/
def zipSamples (x y z : List ℚ) (label : List String) : List Sample :=
  x.zip (y.zip (z.zip label))

/-- The containing cell of a sample, computed by the import loops:
col = int((x - xmin)/dxy), row = int((ymax - y)/dxy),
layer = int((zmax - z)/d_z). -/
def scatterCell (xr yr zr : ℚ × ℚ) (dxy d_z : ℚ) (s : Sample) :
    Nat × Nat × Nat :=
  ((pytrunc ((s.1 - xr.1) / dxy)).toNat,
   (pytrunc ((yr.2 - s.2.1) / dxy)).toNat,
   (pytrunc ((zr.2 - s.2.2.1) / d_z)).toNat)

/-- The lithology index stored for a sample's label.  Every label occurs
in the catalogue the importer just built, so the lookup cannot miss; the
source would drop into the debugger (try/except pdb.set_trace) if it did,
and we default to 0. -/
def scatterVal (ll : List (String × GeoData)) (s : Sample) : Int :=
  match alookup ll s.2.2.2 with
  | some gd => gd.lith_index
  | none => 0

/-- The per-sample grid write of the scatter import loop. -/
def scatterWrite (ll : List (String × GeoData)) (xr yr zr : ℚ × ℚ)
    (dxy d_z : ℚ) (g : Grid3) (s : Sample) : Grid3 :=
  gridWrite g (scatterCell xr yr zr dxy d_z s).1
    (scatterCell xr yr zr dxy d_z s).2.1
    (scatterCell xr yr zr dxy d_z s).2.2
    (scatterVal ll s)

/-- One turn of the lithology-building loop of import_ascii_xyz_model:
increment lindx, add the colour entry, and install a fresh GeoData with
that index for the label. -/
def xyzLithStep (randcol : Int → Color) (p : LithModel × Int)
    (itxt : String) : LithModel × Int :=
  let lindx := p.2 + 1
  let md := p.1
  let gd := setXyz12 { mkGeoData md.numx md.numy md.numz md.dxy md.d_z with
                       lith_index := lindx, modified := true }
  ({ md with mlut := dinsert md.mlut lindx (randcol lindx)
             lith_list := dinsert md.lith_list itxt gd }, lindx)

/-- One turn of the lithology-building loop of import_leapfrog_csv: lindx
is incremented for every label, but a Background label receives index 0
(and colour entry 0) while any other label receives the current lindx. -/
def leapfrogLithStep (randcol : Int → Color) (p : LithModel × Int)
    (itxt : String) : LithModel × Int :=
  let lindx := p.2 + 1
  let md := p.1
  let idx : Int := if itxt = "Background" then 0 else lindx
  let gd := setXyz12 { mkGeoData md.numx md.numy md.numz md.dxy md.d_z with
                       lith_index := idx, modified := true }
  ({ md with mlut := dinsert md.mlut idx (randcol idx)
             lith_list := dinsert md.lith_list itxt gd }, lindx)

/-- Cell-bounded world extent of one axis: the distinct coordinate minimum
and maximum padded by half a cell on each side. -/
def axisRange (vals : List ℚ) (cell : ℚ) : ℚ × ℚ :=
  (listMin (firstSeen vals) - cell/2, listMax (firstSeen vals) + cell/2)

/-- Grid dimension of one axis: int(np.ptp(range)/cell + 1). -/
def axisNum (r : ℚ × ℚ) (cell : ℚ) : Int := pytrunc ((r.2 - r.1) / cell + 1)

/-- The extent and spacing bookkeeping of import_ascii_xyz_model: spacing,
ranges and dimensions, plus removal of the Generic 1 starter lithology. -/
def xyzBase (m : LithModel) (x y z : List ℚ) (dxy d_z : ℚ) : LithModel :=
  { m with dxy := dxy, d_z := d_z, curprof := 0, curlayer := 0
           xrange := axisRange x dxy
           yrange := axisRange y dxy
           zrange := axisRange z d_z
           numx := axisNum (axisRange x dxy) dxy
           numy := axisNum (axisRange y dxy) dxy
           numz := axisNum (axisRange z d_z) d_z
           lith_list := dremove m.lith_list "Generic 1" }

/-- The scatter path's lithology-building loop over the sorted unique
labels. -/
def buildCatXYZ (randcol : Int → Color) (labelu : List String)
    (m1 : LithModel) : LithModel :=
  (labelu.foldl (xyzLithStep randcol) (m1, 0)).1

/-- The update + update_lith_list_reverse pair both importers run after
building the catalogue: fresh sentinel grid on the computed extent. -/
def finishGrid (m2 : LithModel) : LithModel :=
  updateReverse (updateFresh m2 m2.numx m2.numy m2.numz
    m2.xrange.1 m2.yrange.2 m2.zrange.2 m2.dxy m2.d_z)

/-- The per-sample write loop of the scatter path. -/
def xyzFill (m3 : LithModel) (x y z : List ℚ) (label : List String) :
    LithModel :=
  { m3 with lith_index := ((zipSamples x y z label).foldl
      (scatterWrite m3.lith_list m3.xrange m3.yrange m3.zrange m3.dxy m3.d_z)
      m3.lith_index) }

/-- The import_ascii_xyz_model routine of pygmi/pfmod/iodefs.py: the
scatter x,y,z,label path.  The caller has already parsed the file into
columns; randcol supplies the np.random.randint colour triples. -/
def importXYZ (m : LithModel) (x y z : List ℚ) (label : List String)
    (randcol : Int → Color) : Except PyErr LithModel := do
  let xcell ← axisCell x
  let ycell ← axisCell y
  let zcell ← axisCell z
  Except.ok (xyzFill
    (finishGrid (buildCatXYZ randcol (npUniqueStr label)
      (xyzBase m x y z (min xcell ycell) zcell))) x y z label)

/-- The lithology index stored by the leapfrog loop: a blank label maps to
the Background entry, any other label to its own entry. -/
def leapfrogVal (ll : List (String × GeoData)) (s : Sample) : Int :=
  match alookup ll (if s.2.2.2 = "blank" then "Background" else s.2.2.2) with
  | some gd => gd.lith_index
  | none => 0

/-- The per-sample grid write of the leapfrog import loop. -/
def leapfrogWrite (ll : List (String × GeoData)) (xr yr zr : ℚ × ℚ)
    (dxy d_z : ℚ) (g : Grid3) (s : Sample) : Grid3 :=
  gridWrite g (scatterCell xr yr zr dxy d_z s).1
    (scatterCell xr yr zr dxy d_z s).2.1
    (scatterCell xr yr zr dxy d_z s).2.2
    (leapfrogVal ll s)

/-- The extent and spacing bookkeeping of import_leapfrog_csv: dimensions
come from the distinct-value counts rather than from the range. -/
def leapfrogBase (m : LithModel) (x y z : List ℚ) (dxy d_z : ℚ) : LithModel :=
  { m with dxy := dxy, d_z := d_z, curprof := 0, curlayer := 0
           xrange := axisRange x dxy
           yrange := axisRange y dxy
           zrange := axisRange z d_z
           numx := ((firstSeen x).length : Int)
           numy := ((firstSeen y).length : Int)
           numz := ((firstSeen z).length : Int) }

/-- The block-model path's lithology-building loop. -/
def buildCatLeapfrog (randcol : Int → Color) (labelu : List String)
    (m1 : LithModel) : LithModel :=
  (labelu.foldl (leapfrogLithStep randcol) (m1, 0)).1

/-- The per-sample write loop of the block-model path. -/
def leapfrogFill (m3 : LithModel) (x y z : List ℚ) (label : List String) :
    LithModel :=
  { m3 with lith_index := ((zipSamples x y z label).foldl
      (leapfrogWrite m3.lith_list m3.xrange m3.yrange m3.zrange m3.dxy m3.d_z)
      m3.lith_index) }

/-- The import_leapfrog_csv routine of pygmi/pfmod/iodefs.py: the
block-model path.  The caller has parsed the rows into coordinate and
label columns and read the three cell sizes from columns 3-5 of the first
data row; randcol supplies the np.random.randint colour triples. -/
def importLeapfrog (m : LithModel) (x y z : List ℚ) (label : List String)
    (xcell ycell zcell : ℚ) (randcol : Int → Color) : LithModel :=
  leapfrogFill
    (finishGrid (buildCatLeapfrog randcol
      ((npUniqueStr label).map (fun s => if s = "blank" then "Background" else s))
      (leapfrogBase m x y z (max xcell ycell) zcell))) x y z label

theorem firstSeenFrom_nodup {α : Type} [DecidableEq α] (l : List α) :
    ∀ acc : List α, acc.Nodup → (firstSeenFrom acc l).Nodup := by
  induction l with
  | nil => intro acc h; exact h
  | cons v t ih =>
      intro acc h
      by_cases hv : v ∈ acc
      · simpa [firstSeenFrom, hv] using ih acc h
      · have h2 : (acc ++ [v]).Nodup := by
          rw [List.nodup_append]
          exact ⟨h, List.nodup_singleton v, by simpa using hv⟩
        simpa [firstSeenFrom, hv] using ih _ h2

theorem firstSeen_nodup {α : Type} [DecidableEq α] (l : List α) :
    (firstSeen l).Nodup :=
  firstSeenFrom_nodup l [] List.nodup_nil

theorem foldl_preserves {σ α : Type} (P : σ → Prop) (step : σ → α → σ)
    (h : ∀ s a, P s → P (step s a)) :
    ∀ (l : List α) (s : σ), P s → P (l.foldl step s) := by
  intro l
  induction l with
  | nil => intro s hs; exact hs
  | cons a t ih => intro s hs; exact ih (step s a) (h s a hs)

theorem listMax_head_le (a : ℚ) (t : List ℚ) : a ≤ listMax (a :: t) := by
  unfold listMax
  simp only [List.headI, List.foldl]
  exact le_trans (le_max_right a a) (foldl_max_init_le t (max a a))

/-- A successfully computed per-axis cell size is strictly positive: the
first consecutive difference of the distinct-value sequence is nonzero,
sign-normalisation makes it positive, and the maximum can only exceed it. -/
theorem axisCell_pos (vals : List ℚ) (c : ℚ)
    (h : axisCell vals = Except.ok c) : 0 < c := by
  rcases hu : firstSeen vals with _ | ⟨u0, _ | ⟨u1, t⟩⟩
  · unfold axisCell at h
    rw [hu] at h
    simp [diffs] at h
  · unfold axisCell at h
    rw [hu] at h
    simp [diffs] at h
  · have hnd := firstSeen_nodup vals
    rw [hu] at hnd
    have hne : u0 ≠ u1 := by
      intro he
      rw [List.nodup_cons] at hnd
      exact hnd.1 (he ▸ List.mem_cons_self u1 t)
    have hd : diffs (u0 :: u1 :: t) = (u1 - u0) :: diffs (u1 :: t) := rfl
    unfold axisCell at h
    rw [hu, hd] at h
    simp only [List.head?, Option.some.injEq] at h
    by_cases hlt : u1 - u0 < 0
    · rw [if_pos hlt] at h
      have hc : c = listMax ((-(u1 - u0)) :: (diffs (u1 :: t)).map (fun q => -q)) := by
        simpa using h.symm
      have hle : -(u1 - u0) ≤ c := hc ▸ listMax_head_le _ _
      linarith
    · rw [if_neg hlt] at h
      have hc : c = listMax ((u1 - u0) :: diffs (u1 :: t)) := by
        simpa using h.symm
      have hle : u1 - u0 ≤ c := hc ▸ listMax_head_le _ _
      have hpos : 0 < u1 - u0 := by
        rcases lt_trichotomy (u1 - u0) 0 with h1 | h1 | h1
        · exact absurd h1 hlt
        · exact absurd (by linarith : u0 = u1) hne
        · exact h1
      linarith

/-- C7 (amended): an axis with a single distinct value makes the scatter
importer fail fast with the unhandled IndexError raised by reading the
first element of the empty difference vector - before any division - and
not with a DegenerateAxis error, which does not exist in the source; and
no explicit rejection of nonpositive cell sizes exists or is needed, since
every successfully computed per-axis cell size is strictly positive. -/
theorem importXYZ_degenerate_axis (m : LithModel) (x y z : List ℚ)
    (label : List String) (rc : Int → Color) :
    (∀ v, firstSeen x = [v] →
      importXYZ m x y z label rc = Except.error PyErr.indexError)
    ∧ (∀ xc v, axisCell x = Except.ok xc → firstSeen y = [v] →
      importXYZ m x y z label rc = Except.error PyErr.indexError)
    ∧ (∀ xc yc v, axisCell x = Except.ok xc → axisCell y = Except.ok yc →
      firstSeen z = [v] →
      importXYZ m x y z label rc = Except.error PyErr.indexError)
    ∧ (∀ (vals : List ℚ) (c : ℚ), axisCell vals = Except.ok c → 0 < c) := by
  refine ⟨?_, ?_, ?_, fun vals c h => axisCell_pos vals c h⟩
  · intro v hx
    have hax : axisCell x = Except.error PyErr.indexError := by
      unfold axisCell
      rw [hx]
      simp [diffs]
    simp [importXYZ, hax, Except.bind, Bind.bind]
  · intro xc v hax hy
    have hay : axisCell y = Except.error PyErr.indexError := by
      unfold axisCell
      rw [hy]
      simp [diffs]
    simp [importXYZ, hax, hay, Except.bind, Bind.bind]
  · intro xc yc v hax hay hz
    have haz : axisCell z = Except.error PyErr.indexError := by
      unfold axisCell
      rw [hz]
      simp [diffs]
    simp [importXYZ, hax, hay, haz, Except.bind, Bind.bind]

theorem importXYZ_degenerate_axis_witness :
    importXYZ {} [0, 1] [0, 1] [5, 5] ["A", "B"] (fun _ => (0, 0, 0))
      = Except.error PyErr.indexError ∧ (0:ℚ) < 1 := by
  have h := importXYZ_degenerate_axis {} [0, 1] [0, 1] [5, 5] ["A", "B"]
    (fun _ => (0, 0, 0))
  refine ⟨h.2.2.1 1 1 5 ?_ ?_ ?_, ?_⟩
  · norm_num [axisCell, firstSeen, firstSeenFrom, diffs, listMax, List.headI]
  · norm_num [axisCell, firstSeen, firstSeenFrom, diffs, listMax, List.headI]
  · norm_num [firstSeen, firstSeenFrom]
  · exact h.2.2.2 [0, 1] 1
      (by norm_num [axisCell, firstSeen, firstSeenFrom, diffs, listMax, List.headI])

/-- The lithology-building loops touch only the colour table and the
catalogue: every other model field survives the fold. -/
theorem xyzLithFold_scalars (rc : Int → Color) (labelu : List String)
    (p : LithModel × Int) :
    (labelu.foldl (xyzLithStep rc) p).1.dxy = p.1.dxy ∧
    (labelu.foldl (xyzLithStep rc) p).1.d_z = p.1.d_z ∧
    (labelu.foldl (xyzLithStep rc) p).1.numx = p.1.numx ∧
    (labelu.foldl (xyzLithStep rc) p).1.numy = p.1.numy ∧
    (labelu.foldl (xyzLithStep rc) p).1.numz = p.1.numz ∧
    (labelu.foldl (xyzLithStep rc) p).1.xrange = p.1.xrange ∧
    (labelu.foldl (xyzLithStep rc) p).1.yrange = p.1.yrange ∧
    (labelu.foldl (xyzLithStep rc) p).1.zrange = p.1.zrange ∧
    (labelu.foldl (xyzLithStep rc) p).1.lith_index = p.1.lith_index := by
  refine foldl_preserves (fun q =>
    q.1.dxy = p.1.dxy ∧ q.1.d_z = p.1.d_z ∧ q.1.numx = p.1.numx ∧
    q.1.numy = p.1.numy ∧ q.1.numz = p.1.numz ∧ q.1.xrange = p.1.xrange ∧
    q.1.yrange = p.1.yrange ∧ q.1.zrange = p.1.zrange ∧
    q.1.lith_index = p.1.lith_index)
    (xyzLithStep rc) ?_ labelu p
    ⟨rfl, rfl, rfl, rfl, rfl, rfl, rfl, rfl, rfl⟩
  intro s a hs
  exact hs

theorem leapfrogLithFold_scalars (rc : Int → Color) (labelu : List String)
    (p : LithModel × Int) :
    (labelu.foldl (leapfrogLithStep rc) p).1.dxy = p.1.dxy ∧
    (labelu.foldl (leapfrogLithStep rc) p).1.d_z = p.1.d_z ∧
    (labelu.foldl (leapfrogLithStep rc) p).1.numx = p.1.numx ∧
    (labelu.foldl (leapfrogLithStep rc) p).1.numy = p.1.numy ∧
    (labelu.foldl (leapfrogLithStep rc) p).1.numz = p.1.numz ∧
    (labelu.foldl (leapfrogLithStep rc) p).1.xrange = p.1.xrange ∧
    (labelu.foldl (leapfrogLithStep rc) p).1.yrange = p.1.yrange ∧
    (labelu.foldl (leapfrogLithStep rc) p).1.zrange = p.1.zrange ∧
    (labelu.foldl (leapfrogLithStep rc) p).1.lith_index = p.1.lith_index := by
  refine foldl_preserves (fun q =>
    q.1.dxy = p.1.dxy ∧ q.1.d_z = p.1.d_z ∧ q.1.numx = p.1.numx ∧
    q.1.numy = p.1.numy ∧ q.1.numz = p.1.numz ∧ q.1.xrange = p.1.xrange ∧
    q.1.yrange = p.1.yrange ∧ q.1.zrange = p.1.zrange ∧
    q.1.lith_index = p.1.lith_index)
    (leapfrogLithStep rc) ?_ labelu p
    ⟨rfl, rfl, rfl, rfl, rfl, rfl, rfl, rfl, rfl⟩
  intro s a hs
  exact hs

theorem importLeapfrog_run (m : LithModel) (x y z : List ℚ)
    (label : List String) (xcell ycell zcell : ℚ) (rc : Int → Color) :
    importLeapfrog m x y z label xcell ycell zcell rc =
    leapfrogFill (finishGrid (buildCatLeapfrog rc
      ((npUniqueStr label).map (fun s => if s = "blank" then "Background" else s))
      (leapfrogBase m x y z (max xcell ycell) zcell))) x y z label := rfl

theorem leapfrogFill_dxy (m3 : LithModel) (x y z : List ℚ) (l : List String) :
    (leapfrogFill m3 x y z l).dxy = m3.dxy := rfl

theorem leapfrogFill_d_z (m3 : LithModel) (x y z : List ℚ) (l : List String) :
    (leapfrogFill m3 x y z l).d_z = m3.d_z := rfl

theorem xyzFill_dxy (m3 : LithModel) (x y z : List ℚ) (l : List String) :
    (xyzFill m3 x y z l).dxy = m3.dxy := rfl

theorem xyzFill_d_z (m3 : LithModel) (x y z : List ℚ) (l : List String) :
    (xyzFill m3 x y z l).d_z = m3.d_z := rfl

theorem finishGrid_dxy (m2 : LithModel) : (finishGrid m2).dxy = m2.dxy := rfl

theorem finishGrid_d_z (m2 : LithModel) : (finishGrid m2).d_z = m2.d_z := rfl

theorem buildCatLeapfrog_dxy (rc : Int → Color) (L : List String)
    (m1 : LithModel) : (buildCatLeapfrog rc L m1).dxy = m1.dxy :=
  (leapfrogLithFold_scalars rc L (m1, 0)).1

theorem buildCatLeapfrog_d_z (rc : Int → Color) (L : List String)
    (m1 : LithModel) : (buildCatLeapfrog rc L m1).d_z = m1.d_z :=
  (leapfrogLithFold_scalars rc L (m1, 0)).2.1

theorem buildCatXYZ_dxy (rc : Int → Color) (L : List String)
    (m1 : LithModel) : (buildCatXYZ rc L m1).dxy = m1.dxy :=
  (xyzLithFold_scalars rc L (m1, 0)).1

theorem buildCatXYZ_d_z (rc : Int → Color) (L : List String)
    (m1 : LithModel) : (buildCatXYZ rc L m1).d_z = m1.d_z :=
  (xyzLithFold_scalars rc L (m1, 0)).2.1

theorem leapfrogBase_dxy (m : LithModel) (x y z : List ℚ) (dxy d_z : ℚ) :
    (leapfrogBase m x y z dxy d_z).dxy = dxy := rfl

theorem leapfrogBase_d_z (m : LithModel) (x y z : List ℚ) (dxy d_z : ℚ) :
    (leapfrogBase m x y z dxy d_z).d_z = d_z := rfl

theorem xyzBase_dxy (m : LithModel) (x y z : List ℚ) (dxy d_z : ℚ) :
    (xyzBase m x y z dxy d_z).dxy = dxy := rfl

theorem xyzBase_d_z (m : LithModel) (x y z : List ℚ) (dxy d_z : ℚ) :
    (xyzBase m x y z dxy d_z).d_z = d_z := rfl

/-- C8 (amended): the scatter path derives dxy = min(xcell, ycell), the
finer of the two horizontal spacings, but the block-model (leapfrog) path
derives dxy = max(xcell, ycell), the coarser one; both paths set
d_z = zcell. -/
theorem import_cellsize (m : LithModel) (x y z : List ℚ) (label : List String)
    (xcell ycell zcell : ℚ) (rc : Int → Color) :
    ((importLeapfrog m x y z label xcell ycell zcell rc).dxy = max xcell ycell
      ∧ (importLeapfrog m x y z label xcell ycell zcell rc).d_z = zcell)
    ∧ (∀ xc yc zc, axisCell x = Except.ok xc → axisCell y = Except.ok yc →
        axisCell z = Except.ok zc →
        ∃ m', importXYZ m x y z label rc = Except.ok m' ∧
          m'.dxy = min xc yc ∧ m'.d_z = zc) := by
  constructor
  · constructor
    · rw [importLeapfrog_run, leapfrogFill_dxy, finishGrid_dxy,
        buildCatLeapfrog_dxy, leapfrogBase_dxy]
    · rw [importLeapfrog_run, leapfrogFill_d_z, finishGrid_d_z,
        buildCatLeapfrog_d_z, leapfrogBase_d_z]
  · intro xc yc zc hax hay haz
    refine ⟨xyzFill (finishGrid (buildCatXYZ rc (npUniqueStr label)
        (xyzBase m x y z (min xc yc) zc))) x y z label, ?_, ?_, ?_⟩
    · simp [importXYZ, hax, hay, haz, Except.bind, Bind.bind]
    · rw [xyzFill_dxy, finishGrid_dxy, buildCatXYZ_dxy, xyzBase_dxy]
    · rw [xyzFill_d_z, finishGrid_d_z, buildCatXYZ_d_z, xyzBase_d_z]

theorem import_cellsize_witness :
    (importLeapfrog {} [0, 1] [0, 2] [0, 1] ["A", "A"] 1 2 3
      (fun _ => (0, 0, 0))).dxy = max 1 2 ∧
    ∃ m', importXYZ {} [0, 1] [0, 2] [0, 4] ["A", "B"] (fun _ => (0, 0, 0))
      = Except.ok m' ∧ m'.dxy = min 1 2 ∧ m'.d_z = 4 := by
  have h := import_cellsize {} [0, 1] [0, 2] [0, 4] ["A", "B"] 1 2 3
    (fun _ => (0, 0, 0))
  refine ⟨(import_cellsize {} [0, 1] [0, 2] [0, 1] ["A", "A"] 1 2 3
    (fun _ => (0, 0, 0))).1.1, ?_⟩
  exact h.2 1 2 4
    (by norm_num [axisCell, firstSeen, firstSeenFrom, diffs, listMax, List.headI])
    (by norm_num [axisCell, firstSeen, firstSeenFrom, diffs, listMax, List.headI])
    (by norm_num [axisCell, firstSeen, firstSeenFrom, diffs, listMax, List.headI])

/-- C8 counterexample: a block-model source whose first data row carries
cell sizes xcell = 1, ycell = 2 produces a model with dxy = 2, the coarser
spacing, not the claimed min(xcell, ycell) = 1. -/
theorem import_cellsize_counterexample :
    (importLeapfrog {} [0, 1] [0, 2] [0, 1] ["A", "A"] 1 2 3
      (fun _ => (0, 0, 0))).dxy = 2 ∧ min (1:ℚ) 2 = 1 ∧ (2:ℚ) ≠ 1 := by
  refine ⟨?_, by norm_num, by norm_num⟩
  rw [importLeapfrog_run, leapfrogFill_dxy, finishGrid_dxy,
    buildCatLeapfrog_dxy, leapfrogBase_dxy]
  norm_num

theorem firstSeenFrom_mem {α : Type} [DecidableEq α] (l : List α) :
    ∀ (acc : List α) (a : α), a ∈ firstSeenFrom acc l ↔ a ∈ acc ∨ a ∈ l := by
  induction l with
  | nil => intro acc a; simp [firstSeenFrom]
  | cons v t ih =>
      intro acc a
      by_cases hv : v ∈ acc
      · rw [firstSeenFrom, if_pos hv, ih]
        constructor
        · rintro (h | h)
          · exact Or.inl h
          · exact Or.inr (List.mem_cons_of_mem v h)
        · rintro (h | h)
          · exact Or.inl h
          · rcases List.mem_cons.mp h with h | h
            · exact Or.inl (h ▸ hv)
            · exact Or.inr h
      · rw [firstSeenFrom, if_neg hv, ih]
        simp only [List.mem_append, List.mem_singleton, List.mem_cons]
        tauto

theorem firstSeen_mem {α : Type} [DecidableEq α] (l : List α) (a : α) :
    a ∈ firstSeen l ↔ a ∈ l := by
  rw [firstSeen, firstSeenFrom_mem]
  simp

theorem npUniqueStr_mem (l : List String) (a : String) :
    a ∈ npUniqueStr l ↔ a ∈ l := by
  rw [npUniqueStr, (List.mergeSort_perm (firstSeen l) _).mem_iff, firstSeen_mem]

theorem npUniqueStr_nodup (l : List String) : (npUniqueStr l).Nodup :=
  (List.mergeSort_perm (firstSeen l) _).nodup_iff.mpr (firstSeen_nodup l)

theorem alookup_append {α β : Type} [DecidableEq α] (l1 l2 : List (α × β))
    (k : α) :
    alookup (l1 ++ l2) k =
      match alookup l1 k with
      | some v => some v
      | none => alookup l2 k := by
  induction l1 with
  | nil => simp [alookup]
  | cons p t ih =>
      by_cases h : k = p.1
      · simp [alookup, h]
      · simpa [alookup, h] using ih

theorem dinsert_of_none {α β : Type} [DecidableEq α] (l : List (α × β))
    (k : α) (v : β) (h : alookup l k = none) : dinsert l k v = l ++ [(k, v)] := by
  induction l with
  | nil => rfl
  | cons p t ih =>
      rw [alookup] at h
      by_cases hk : k = p.1
      · rw [if_pos hk] at h; cases h
      · rw [if_neg hk] at h
        rcases p with ⟨k', v'⟩
        rw [dinsert, if_neg hk, ih h]
        rfl

theorem alookup_none_iff {α β : Type} [DecidableEq α] (l : List (α × β))
    (k : α) : alookup l k = none ↔ ∀ p ∈ l, k ≠ p.1 := by
  induction l with
  | nil => simp [alookup]
  | cons p t ih =>
      rw [alookup]
      by_cases hk : k = p.1
      · simp [hk]
      · rw [if_neg hk, ih]
        simp only [List.mem_cons]
        constructor
        · rintro h q (hq | hq)
          · exact hq ▸ hk
          · exact h q hq
        · intro h q hq
          exact h q (Or.inr hq)

theorem alookup_singleton {α β : Type} [DecidableEq α] (k k' : α) (v : β) :
    alookup [(k', v)] k = if k = k' then some v else none := rfl

/-- Arithmetic progression a, a+s, ..., a+(n-1)s: the distinct coordinate
values of one axis of an exact regular lattice. -/
def arith (a s : ℚ) (n : Nat) : List ℚ :=
  (List.range n).map (fun i : Nat => a + (i : ℚ) * s)

theorem arith_succ_append (a s : ℚ) (n : Nat) :
    arith a s (n + 1) = arith a s n ++ [a + n * s] := by
  unfold arith
  rw [List.range_succ, List.map_append]
  rfl

theorem arith_cons (a s : ℚ) (n : Nat) :
    arith a s (n + 1) = a :: arith (a + s) s n := by
  unfold arith
  rw [List.range_succ_eq_map, List.map_cons, List.map_map]
  congr 1
  · simp
  · apply List.map_congr_left
    intro i _
    simp only [Function.comp]
    push_cast
    ring

theorem mem_arith (a s v : ℚ) (n : Nat) :
    v ∈ arith a s n ↔ ∃ i : Nat, i < n ∧ v = a + i * s := by
  unfold arith
  simp only [List.mem_map, List.mem_range]
  constructor
  · rintro ⟨i, hi, h⟩; exact ⟨i, hi, h.symm⟩
  · rintro ⟨i, hi, h⟩; exact ⟨i, hi, h.symm⟩

theorem arith_fresh (a s : ℚ) (n : Nat) (hs : s ≠ 0) :
    a + n * s ∉ arith a s n := by
  rw [mem_arith]
  rintro ⟨i, hi, h⟩
  have h2 : (i : ℚ) * s = (n : ℚ) * s := by linarith
  have h3 : (i : ℚ) = (n : ℚ) := mul_right_cancel₀ hs h2
  have h4 : i = n := Nat.cast_injective h3
  omega

theorem firstSeenFrom_all_mem {α : Type} [DecidableEq α] (l : List α) :
    ∀ acc : List α, (∀ v ∈ l, v ∈ acc) → firstSeenFrom acc l = acc := by
  induction l with
  | nil => intro acc _; rfl
  | cons v t ih =>
      intro acc h
      have hv : v ∈ acc := h v (List.mem_cons_self v t)
      rw [firstSeenFrom, if_pos hv]
      exact ih acc (fun w hw => h w (List.mem_cons_of_mem v hw))

theorem firstSeenFrom_append {α : Type} [DecidableEq α] (l1 l2 : List α) :
    ∀ acc : List α,
      firstSeenFrom acc (l1 ++ l2) = firstSeenFrom (firstSeenFrom acc l1) l2 := by
  induction l1 with
  | nil => intro acc; rfl
  | cons v t ih =>
      intro acc
      rw [List.cons_append, firstSeenFrom, firstSeenFrom, ih]

theorem firstSeenFrom_const {α : Type} [DecidableEq α] (v : α) (l : List α)
    (hl : ∀ w ∈ l, w = v) (hne : l ≠ []) (acc : List α) (hacc : v ∉ acc) :
    firstSeenFrom acc l = acc ++ [v] := by
  rcases l with _ | ⟨w, t⟩
  · cases hne rfl
  · have hw : w = v := hl w (List.mem_cons_self w t)
    subst hw
    rw [firstSeenFrom, if_neg hacc]
    refine firstSeenFrom_all_mem t (acc ++ [w]) ?_
    intro u hu
    rw [hl u (List.mem_cons_of_mem w hu)]
    simp

theorem foldl_min_const (l : List ℚ) :
    ∀ a : ℚ, (∀ v ∈ l, a ≤ v) → l.foldl min a = a := by
  induction l with
  | nil => intro a _; rfl
  | cons v t ih =>
      intro a h
      rw [List.foldl_cons, min_eq_left (h v (List.mem_cons_self v t))]
      exact ih a (fun w hw => h w (List.mem_cons_of_mem v hw))

theorem foldl_max_le_bound (l : List ℚ) :
    ∀ a b : ℚ, a ≤ b → (∀ v ∈ l, v ≤ b) → l.foldl max a ≤ b := by
  induction l with
  | nil => intro a b hab _; exact hab
  | cons v t ih =>
      intro a b hab h
      rw [List.foldl_cons]
      exact ih (max a v) b
        (max_le hab (h v (List.mem_cons_self v t)))
        (fun w hw => h w (List.mem_cons_of_mem v hw))

theorem mem_le_listMax (l : List ℚ) (b : ℚ) (hb : b ∈ l) : b ≤ listMax l := by
  rcases l with _ | ⟨h, t⟩
  · cases hb
  · rw [listMax]
    simp only [List.headI, List.foldl_cons, max_self]
    rcases List.mem_cons.mp hb with h1 | h1
    · exact h1 ▸ foldl_max_init_le t h
    · exact foldl_max_of_mem t h b h1

theorem listMax_le_bound (l : List ℚ) (b : ℚ) (hne : l ≠ [])
    (h : ∀ v ∈ l, v ≤ b) : listMax l ≤ b := by
  rcases l with _ | ⟨hh, t⟩
  · cases hne rfl
  · rw [listMax]
    simp only [List.headI, List.foldl_cons, max_self]
    exact foldl_max_le_bound t hh b (h hh (List.mem_cons_self hh t))
      (fun w hw => h w (List.mem_cons_of_mem hh hw))

theorem listMin_arith (a s : ℚ) (n : Nat) (hs : 0 ≤ s) :
    listMin (arith a s (n + 1)) = a := by
  rw [listMin, arith_cons]
  simp only [List.headI, List.foldl_cons, min_self]
  refine foldl_min_const _ a ?_
  intro v hv
  rw [mem_arith] at hv
  obtain ⟨i, _, h⟩ := hv
  have h0 : 0 ≤ (i : ℚ) * s := mul_nonneg (Nat.cast_nonneg i) hs
  linarith

theorem listMax_arith (a s : ℚ) (n : Nat) (hs : 0 ≤ s) :
    listMax (arith a s (n + 1)) = a + n * s := by
  refine le_antisymm ?_ ?_
  · refine listMax_le_bound _ _ ?_ ?_
    · rw [arith_cons]
      exact List.cons_ne_nil a _
    · intro v hv
      rw [mem_arith] at hv
      obtain ⟨i, hi, h⟩ := hv
      have hin : (i : ℚ) ≤ (n : ℚ) := by
        exact_mod_cast Nat.le_of_lt_succ hi
      have := mul_le_mul_of_nonneg_right hin hs
      linarith
  · refine mem_le_listMax _ _ ?_
    rw [mem_arith]
    exact ⟨n, Nat.lt_succ_self n, rfl⟩

theorem diffs_arith (s : ℚ) : ∀ (n : Nat) (a : ℚ),
    diffs (arith a s (n + 1)) = List.replicate n s := by
  intro n
  induction n with
  | zero => intro a; rfl
  | succ k ih =>
      intro a
      have h1 : arith a s (k + 2) = a :: arith (a + s) s (k + 1) := arith_cons a s (k + 1)
      have h2 : arith (a + s) s (k + 1) = (a + s) :: arith (a + s + s) s k :=
        arith_cons (a + s) s k
      rw [h1]
      have hd : diffs (a :: arith (a + s) s (k + 1))
          = ((a + s) - a) :: diffs (arith (a + s) s (k + 1)) := by
        rw [h2]; rfl
      rw [hd, ih (a + s), List.replicate_succ]
      congr 1
      ring

theorem listMax_replicate (n : Nat) (s : ℚ) :
    listMax (List.replicate (n + 1) s) = s := by
  refine le_antisymm ?_ ?_
  · refine listMax_le_bound _ s ?_ ?_
    · simp [List.replicate_succ]
    · intro v hv
      rw [List.eq_of_mem_replicate hv]
  · exact mem_le_listMax _ s (by simp [List.replicate_succ])

/-- Row-major enumeration of an exact regular nx-by-ny-by-nz lattice with
spacing s on every axis and first point (x0, y0, z0). -/
def latticePts (nx ny nz : Nat) (x0 y0 z0 s : ℚ) : List (ℚ × ℚ × ℚ) :=
  (List.range nx).flatMap (fun i : Nat => (List.range ny).flatMap (fun j : Nat =>
    (List.range nz).map (fun k : Nat =>
      (x0 + (i : ℚ) * s, y0 + (j : ℚ) * s, z0 + (k : ℚ) * s))))

/-- The x column of the lattice source. -/
def latticeX (nx ny nz : Nat) (x0 y0 z0 s : ℚ) : List ℚ :=
  (latticePts nx ny nz x0 y0 z0 s).map (·.1)

/-- The y column of the lattice source. -/
def latticeY (nx ny nz : Nat) (x0 y0 z0 s : ℚ) : List ℚ :=
  (latticePts nx ny nz x0 y0 z0 s).map (·.2.1)

/-- The z column of the lattice source. -/
def latticeZ (nx ny nz : Nat) (x0 y0 z0 s : ℚ) : List ℚ :=
  (latticePts nx ny nz x0 y0 z0 s).map (·.2.2)

/-- The label column of the lattice source: an arbitrary labelling of the
points. -/
def latticeLab (nx ny nz : Nat) (x0 y0 z0 s : ℚ)
    (labf : ℚ × ℚ × ℚ → String) : List String :=
  (latticePts nx ny nz x0 y0 z0 s).map labf

/-- Distinct-value extraction over consecutive blocks of repeated values:
when block i holds only the value g i, always nonempty, and g i is new at
each step, the result enumerates g over the blocks. -/
theorem firstSeen_constBlocks (g : Nat → ℚ) (B : Nat → List ℚ)
    (hall : ∀ i, ∀ v ∈ B i, v = g i) (hne : ∀ i, B i ≠ [])
    (hfresh : ∀ i, g i ∉ (List.range i).map g) :
    ∀ n : Nat, firstSeen ((List.range n).flatMap B) = (List.range n).map g := by
  intro n
  induction n with
  | zero => rfl
  | succ m ih =>
      rw [List.range_succ, List.flatMap_append, List.flatMap_singleton]
      simp only [firstSeen] at ih ⊢
      rw [firstSeenFrom_append, ih,
        firstSeenFrom_const (g m) (B m) (hall m) (hne m) _ (hfresh m),
        List.map_append]
      rfl

theorem firstSeenFrom_const_copies {α : Type} (L : List ℚ) (acc : List ℚ)
    (hsub : ∀ v ∈ L, v ∈ acc) (l : List α) :
    firstSeenFrom acc (l.flatMap (fun _ => L)) = acc := by
  refine firstSeenFrom_all_mem _ acc ?_
  intro v hv
  rw [List.mem_flatMap] at hv
  obtain ⟨_, _, hvL⟩ := hv
  exact hsub v hvL

theorem firstSeen_latticeX (nx ny nz : Nat) (x0 y0 z0 s : ℚ)
    (hny : 1 ≤ ny) (hnz : 1 ≤ nz) (hs : s ≠ 0) :
    firstSeen (latticeX nx ny nz x0 y0 z0 s) = arith x0 s nx := by
  have hX : latticeX nx ny nz x0 y0 z0 s = (List.range nx).flatMap
      (fun i : Nat => (List.range ny).flatMap (fun _ =>
        (List.range nz).map (fun _ => x0 + (i : ℚ) * s))) := by
    unfold latticeX latticePts
    rw [List.map_flatMap]
    refine List.flatMap_congr ?_
    intro i _
    rw [List.map_flatMap]
    refine List.flatMap_congr ?_
    intro j _
    rw [List.map_map]
    rfl
  rw [hX]
  refine firstSeen_constBlocks (fun i : Nat => x0 + (i : ℚ) * s) _ ?_ ?_ ?_ nx
  · intro i v hv
    rw [List.mem_flatMap] at hv
    obtain ⟨_, _, hv2⟩ := hv
    rw [List.mem_map] at hv2
    obtain ⟨_, _, hv3⟩ := hv2
    exact hv3.symm
  · intro i
    refine List.ne_nil_of_mem (a := x0 + (i : ℚ) * s) ?_
    rw [List.mem_flatMap]
    refine ⟨0, by simpa using hny, ?_⟩
    rw [List.mem_map]
    exact ⟨0, by simpa using hnz, rfl⟩
  · intro i
    exact arith_fresh x0 s i hs

theorem firstSeen_latticeY (nx ny nz : Nat) (x0 y0 z0 s : ℚ)
    (hnx : 1 ≤ nx) (hnz : 1 ≤ nz) (hs : s ≠ 0) :
    firstSeen (latticeY nx ny nz x0 y0 z0 s) = arith y0 s ny := by
  have hY : latticeY nx ny nz x0 y0 z0 s = (List.range nx).flatMap
      (fun _ => (List.range ny).flatMap (fun j : Nat =>
        (List.range nz).map (fun _ => y0 + (j : ℚ) * s))) := by
    unfold latticeY latticePts
    rw [List.map_flatMap]
    refine List.flatMap_congr ?_
    intro i _
    rw [List.map_flatMap]
    refine List.flatMap_congr ?_
    intro j _
    rw [List.map_map]
    rfl
  have hblk : firstSeen ((List.range ny).flatMap (fun j =>
      (List.range nz).map (fun _ => y0 + (j : ℚ) * s))) = arith y0 s ny := by
    refine firstSeen_constBlocks (fun j : Nat => y0 + (j : ℚ) * s) _ ?_ ?_ ?_ ny
    · intro j v hv
      rw [List.mem_map] at hv
      obtain ⟨_, _, hv2⟩ := hv
      exact hv2.symm
    · intro j
      refine List.ne_nil_of_mem (a := y0 + (j : ℚ) * s) ?_
      rw [List.mem_map]
      exact ⟨0, by simpa using hnz, rfl⟩
    · intro j
      exact arith_fresh y0 s j hs
  obtain ⟨m, hm⟩ := Nat.exists_eq_add_of_le hnx
  rw [hY, hm, Nat.add_comm 1 m, List.range_succ_eq_map, List.flatMap_cons]
  simp only [firstSeen] at hblk ⊢
  rw [firstSeenFrom_append, hblk, firstSeenFrom_const_copies]
  intro v hv
  have hv2 : v ∈ arith y0 s ny := by
    rw [← hblk, firstSeenFrom_mem]
    exact Or.inr hv
  exact hv2

theorem firstSeen_latticeZ (nx ny nz : Nat) (x0 y0 z0 s : ℚ)
    (hnx : 1 ≤ nx) (hny : 1 ≤ ny) (hs : s ≠ 0) :
    firstSeen (latticeZ nx ny nz x0 y0 z0 s) = arith z0 s nz := by
  have hZ : latticeZ nx ny nz x0 y0 z0 s = (List.range nx).flatMap
      (fun _ => (List.range ny).flatMap (fun _ =>
        (List.range nz).map (fun k : Nat => z0 + (k : ℚ) * s))) := by
    unfold latticeZ latticePts
    rw [List.map_flatMap]
    refine List.flatMap_congr ?_
    intro i _
    rw [List.map_flatMap]
    refine List.flatMap_congr ?_
    intro j _
    rw [List.map_map]
    rfl
  have hblk : firstSeen ((List.range nz).map (fun k : Nat => z0 + (k : ℚ) * s))
      = arith z0 s nz := by
    have hmap : (List.range nz).map (fun k : Nat => z0 + (k : ℚ) * s)
        = (List.range nz).flatMap (fun k : Nat => [z0 + (k : ℚ) * s]) :=
      (List.map_eq_flatMap _ _)
    rw [hmap]
    refine firstSeen_constBlocks (fun k : Nat => z0 + (k : ℚ) * s) _ ?_ ?_ ?_ nz
    · intro k v hv
      rw [List.mem_singleton] at hv
      exact hv
    · intro k
      exact List.cons_ne_nil _ _
    · intro k
      exact arith_fresh z0 s k hs
  have hmid : firstSeen ((List.range ny).flatMap (fun _ =>
      (List.range nz).map (fun k : Nat => z0 + (k : ℚ) * s))) = arith z0 s nz := by
    obtain ⟨m, hm⟩ := Nat.exists_eq_add_of_le hny
    rw [hm, Nat.add_comm 1 m, List.range_succ_eq_map, List.flatMap_cons]
    simp only [firstSeen] at hblk ⊢
    rw [firstSeenFrom_append, hblk, firstSeenFrom_const_copies]
    intro v hv
    have hv2 : v ∈ arith z0 s nz := by
      rw [← hblk, firstSeenFrom_mem]
      exact Or.inr hv
    exact hv2
  obtain ⟨m, hm⟩ := Nat.exists_eq_add_of_le hnx
  rw [hZ, hm, Nat.add_comm 1 m, List.range_succ_eq_map, List.flatMap_cons]
  simp only [firstSeen] at hmid ⊢
  rw [firstSeenFrom_append, hmid, firstSeenFrom_const_copies]
  intro v hv
  have hv2 : v ∈ arith z0 s nz := by
    rw [← hmid, firstSeenFrom_mem]
    exact Or.inr hv
  exact hv2

/-- The GeoData record the scatter loop installs for the label holding
1-based index idx, built from the model's current grid metadata. -/
def xyzGd (md : LithModel) (idx : Int) : GeoData :=
  setXyz12 { mkGeoData md.numx md.numy md.numz md.dxy md.d_z with
             lith_index := idx, modified := true }

/-- Map with a running counter, for describing the catalogue the import
loops build. -/
def idxMap {β : Type} (f : Nat → String → β) : Nat → List String → List β
  | _, [] => []
  | t, a :: l => f t a :: idxMap f (t + 1) l

theorem idxMap_congr {β : Type} (f g : Nat → String → β)
    (h : ∀ t a, f t a = g t a) :
    ∀ (l : List String) (t0 : Nat), idxMap f t0 l = idxMap g t0 l := by
  intro l
  induction l with
  | nil => intro t0; rfl
  | cons a t ih => intro t0; rw [idxMap, idxMap, h, ih]

theorem idxMap_shift {β : Type} (f : Nat → String → β) :
    ∀ (l : List String) (t0 : Nat),
      idxMap f (t0 + 1) l = idxMap (fun t a => f (t + 1) a) t0 l := by
  intro l
  induction l with
  | nil => intro t0; rfl
  | cons a t ih => intro t0; rw [idxMap, idxMap, ih]

/-- The scatter catalogue loop appends, for the t-th label (0-based), an
entry with lith_index c+t+1, after the starting counter c. -/
theorem xyzCatFold (rc : Int → Color) (labelu : List String) :
    ∀ (md : LithModel) (c : Int),
      (∀ n ∈ labelu, alookup md.lith_list n = none) → labelu.Nodup →
      (labelu.foldl (xyzLithStep rc) (md, c)).1.lith_list
        = md.lith_list ++
          idxMap (fun t n => (n, xyzGd md (c + t + 1))) 0 labelu := by
  induction labelu with
  | nil => intro md c _ _; simp [idxMap]
  | cons n t ih =>
      intro md c hnone hnd
      obtain ⟨hnmem, hndt⟩ := List.nodup_cons.mp hnd
      have hn : alookup md.lith_list n = none := hnone n (List.mem_cons_self n t)
      have hstep : (xyzLithStep rc (md, c) n) =
          ({ md with mlut := dinsert md.mlut (c + 1) (rc (c + 1))
                     lith_list := md.lith_list ++ [(n, xyzGd md (c + 1))] },
            c + 1) := by
        simp only [xyzLithStep, xyzGd]
        rw [dinsert_of_none md.lith_list n _ hn]
      rw [List.foldl_cons, hstep]
      have hnone3 : ∀ n' ∈ t,
          alookup (md.lith_list ++ [(n, xyzGd md (c + 1))]) n' = none := by
        intro n' hn'
        have hne : n' ≠ n := fun he => hnmem (he ▸ hn')
        rw [alookup_append, hnone n' (List.mem_cons_of_mem n hn')]
        simp [alookup_singleton, hne]
      rw [ih _ (c + 1) hnone3 hndt]
      rw [idxMap, idxMap_shift]
      rw [List.append_assoc]
      congr 1
      rw [List.cons_append, List.nil_append]
      congr 1
      · norm_num
      · refine idxMap_congr _ _ ?_ t 0
        intro t' a
        rw [show (c + 1) + (t' : Int) + 1 = c + ((t' + 1 : Nat) : Int) + 1 by
          push_cast; ring]
        rfl

theorem gridWrite_self (g : Grid3) (c r l : Nat) (v : Int) :
    gridWrite g c r l v c r l = v := by
  simp [gridWrite]

theorem gridWrite_other (g : Grid3) (c r l : Nat) (v : Int) (i j k : Nat)
    (h : ¬ (i = c ∧ j = r ∧ k = l)) : gridWrite g c r l v i j k = g i j k := by
  simp only [gridWrite, if_neg h]

theorem foldl_gridWrite_untouched (f : Sample → Nat × Nat × Nat)
    (v : Sample → Int) (l : List Sample) :
    ∀ (g : Grid3) (i j k : Nat), (∀ s ∈ l, f s ≠ (i, j, k)) →
      (l.foldl (fun g' s => gridWrite g' (f s).1 (f s).2.1 (f s).2.2 (v s)) g)
        i j k = g i j k := by
  induction l with
  | nil => intro g i j k _; rfl
  | cons a t ih =>
      intro g i j k h
      rw [List.foldl_cons, ih _ i j k (fun s hs => h s (List.mem_cons_of_mem a hs))]
      refine gridWrite_other g _ _ _ _ i j k ?_
      rintro ⟨h1, h2, h3⟩
      subst h1
      subst h2
      subst h3
      exact h a (List.mem_cons_self a t) rfl

theorem foldl_gridWrite_hit (f : Sample → Nat × Nat × Nat) (v : Sample → Int)
    (l : List Sample) :
    ∀ (g : Grid3) (s₀ : Sample), s₀ ∈ l →
      List.Pairwise (fun a b => f a ≠ f b) l →
      (l.foldl (fun g' s => gridWrite g' (f s).1 (f s).2.1 (f s).2.2 (v s)) g)
        (f s₀).1 (f s₀).2.1 (f s₀).2.2 = v s₀ := by
  induction l with
  | nil => intro g s₀ h _; cases h
  | cons a t ih =>
      intro g s₀ h hpw
      obtain ⟨hhead, htail⟩ := List.pairwise_cons.mp hpw
      rcases List.mem_cons.mp h with h1 | h1
      · subst h1
        rw [List.foldl_cons]
        have huntouched : ∀ s ∈ t, f s ≠ ((f s₀).1, (f s₀).2.1, (f s₀).2.2) := by
          intro s hs
          have hne := hhead s hs
          intro he
          exact hne (by rw [he])
        rw [foldl_gridWrite_untouched f v t _ _ _ _ huntouched]
        exact gridWrite_self g _ _ _ _
      · rw [List.foldl_cons]
        exact ih _ s₀ h1 htail

theorem pytrunc_nat_half (i : Nat) : pytrunc ((i : ℚ) + 1/2) = (i : Int) := by
  unfold pytrunc
  rw [if_neg]
  · rw [Int.floor_eq_iff]
    constructor
    · push_cast; linarith
    · push_cast; linarith
  · have : (0:ℚ) ≤ (i : ℚ) := Nat.cast_nonneg i
    linarith

theorem pytrunc_coe (n : Nat) : pytrunc ((n : ℚ)) = (n : Int) := by
  unfold pytrunc
  rw [if_neg]
  · exact_mod_cast Int.floor_natCast n
  · have : (0:ℚ) ≤ (n : ℚ) := Nat.cast_nonneg n
    linarith

theorem cell_calc (s : ℚ) (hs : 0 < s) (i : Nat) :
    pytrunc (((i : ℚ) * s + s / 2) / s) = (i : Int) := by
  have hz : s ≠ 0 := ne_of_gt hs
  have h : ((i : ℚ) * s + s / 2) / s = (i : ℚ) + 1/2 := by
    field_simp
    ring
  rw [h, pytrunc_nat_half]

theorem axisCell_of_firstSeen (col : List ℚ) (a s : ℚ) (n : Nat)
    (hcol : firstSeen col = arith a s n) (hn : 2 ≤ n) (hs : 0 < s) :
    axisCell col = Except.ok s := by
  obtain ⟨m, hm⟩ := Nat.exists_eq_add_of_le hn
  subst hm
  unfold axisCell
  rw [hcol]
  have hd : diffs (arith a s (2 + m)) = List.replicate (m + 1) s := by
    rw [show 2 + m = (m + 1) + 1 by omega]
    exact diffs_arith s (m + 1) a
  rw [hd, List.replicate_succ]
  simp only [List.head?]
  rw [if_neg (by exact not_lt.mpr (le_of_lt hs))]
  rw [← List.replicate_succ, listMax_replicate]

theorem axisRange_of_firstSeen (col : List ℚ) (a s : ℚ) (n : Nat) (cell : ℚ)
    (hcol : firstSeen col = arith a s (n + 1)) (hs : 0 ≤ s) :
    axisRange col cell = (a - cell/2, a + n * s + cell/2) := by
  unfold axisRange
  rw [hcol, listMin_arith a s n hs, listMax_arith a s n hs]

theorem axisNum_lattice (a s : ℚ) (n : Nat) (hs : 0 < s) :
    axisNum (a - s/2, a + n * s + s/2) s = (n : Int) + 2 := by
  unfold axisNum
  have hz : s ≠ 0 := ne_of_gt hs
  have h : ((a + n * s + s/2) - (a - s/2)) / s + 1 = ((n + 2 : Nat) : ℚ) := by
    push_cast
    field_simp
    ring
  rw [h, pytrunc_coe]
  push_cast
  ring

theorem alookup_idxMap (gd : Nat → GeoData) (labelu : List String) (n : String) :
    ∀ t0 : Nat, n ∈ labelu →
      ∃ t, alookup (idxMap (fun t a => (a, gd t)) t0 labelu) n
        = some (gd t) ∧ t0 ≤ t := by
  induction labelu with
  | nil => intro t0 h; cases h
  | cons a l ih =>
      intro t0 h
      by_cases he : n = a
      · refine ⟨t0, ?_, le_refl t0⟩
        rw [idxMap, alookup, if_pos he]
      · rcases List.mem_cons.mp h with h1 | h1
        · exact absurd h1 he
        · obtain ⟨t, ht, ht0⟩ := ih (t0 + 1) h1
          refine ⟨t, ?_, by omega⟩
          rw [idxMap, alookup, if_neg he, ht]

theorem xyzGd_lith_index (md : LithModel) (idx : Int) :
    (xyzGd md idx).lith_index = idx := rfl

theorem cell_calc_sub (s : ℚ) (hs : 0 < s) (a b : Nat) (hba : b ≤ a) :
    pytrunc ((((a : ℚ) * s + s/2) - (b : ℚ) * s) / s) = ((a - b : Nat) : Int) := by
  have hcast : ((a - b : Nat) : ℚ) = (a : ℚ) - (b : ℚ) := Nat.cast_sub hba
  have h : (((a : ℚ) * s + s/2) - (b : ℚ) * s) = ((a - b : Nat) : ℚ) * s + s/2 := by
    rw [hcast]; ring
  rw [h, cell_calc s hs]

theorem pairwise_flatMap_range {β : Type} (R : β → β → Prop) (F : Nat → List β) :
    ∀ n : Nat, (∀ i, i < n → List.Pairwise R (F i)) →
      (∀ i j, i < j → j < n → ∀ a ∈ F i, ∀ b ∈ F j, R a b) →
      List.Pairwise R ((List.range n).flatMap F) := by
  intro n
  induction n with
  | zero => intro _ _; exact List.Pairwise.nil
  | succ m ih =>
      intro hin hcross
      rw [List.range_succ, List.flatMap_append, List.flatMap_singleton,
        List.pairwise_append]
      refine ⟨ih (fun i hi => hin i (by omega))
        (fun i j hij hj => hcross i j hij (by omega)), hin m (by omega), ?_⟩
      intro a ha b hb
      rw [List.mem_flatMap] at ha
      obtain ⟨i, hi, hai⟩ := ha
      rw [List.mem_range] at hi
      exact hcross i m hi (by omega) a hai b hb

/-- Samples of a row-major lattice land in pairwise distinct cells under
any cell map that sends the point (i, j, k) to (i, ny-1-j, nz-1-k). -/
theorem latticePts_pairwise_cells (nx ny nz : Nat) (x0 y0 z0 s : ℚ)
    (cell : ℚ × ℚ × ℚ → Nat × Nat × Nat)
    (hcell : ∀ i j k : Nat, i < nx → j < ny → k < nz →
      cell (x0 + (i : ℚ) * s, y0 + (j : ℚ) * s, z0 + (k : ℚ) * s)
        = (i, ny - 1 - j, nz - 1 - k)) :
    List.Pairwise (fun p q => cell p ≠ cell q)
      (latticePts nx ny nz x0 y0 z0 s) := by
  unfold latticePts
  refine pairwise_flatMap_range _ _ nx ?_ ?_
  · intro i hi
    refine pairwise_flatMap_range _ _ ny ?_ ?_
    · intro j hj
      rw [List.map_eq_flatMap]
      refine pairwise_flatMap_range _ _ nz ?_ ?_
      · intro k _
        exact List.pairwise_singleton _ _
      · intro k k' hkk hk a ha b hb
        rw [List.mem_singleton] at ha hb
        subst ha
        subst hb
        rw [hcell i j k hi hj (by omega), hcell i j k' hi hj hk]
        intro he
        have h3 := (Prod.mk.injEq .. ▸ he)
        have : nz - 1 - k = nz - 1 - k' := by
          have := congrArg (fun q : Nat × Nat × Nat => q.2.2) he
          simpa using this
        omega
    · intro j j' hjj hj a ha b hb
      rw [List.mem_map] at ha hb
      obtain ⟨k, hk, hka⟩ := ha
      obtain ⟨k', hk', hkb⟩ := hb
      rw [List.mem_range] at hk hk'
      subst hka
      subst hkb
      rw [hcell i j k hi (by omega) hk, hcell i j' k' hi hj hk']
      intro he
      have : ny - 1 - j = ny - 1 - j' := by
        have := congrArg (fun q : Nat × Nat × Nat => q.2.1) he
        simpa using this
      omega
  · intro i i' hii hi a ha b hb
    rw [List.mem_flatMap] at ha hb
    obtain ⟨j, _, ha2⟩ := ha
    obtain ⟨j', _, hb2⟩ := hb
    rw [List.mem_map] at ha2 hb2
    obtain ⟨k, hk, hka⟩ := ha2
    obtain ⟨k', hk', hkb⟩ := hb2
    rw [List.mem_range] at *
    subst hka
    subst hkb
    rw [hcell i j k (by omega) (by omega) (by omega),
      hcell i' j' k' hi (by omega) (by omega)]
    intro he
    have : i = i' := by
      have := congrArg (fun q : Nat × Nat × Nat => q.1) he
      simpa using this
    omega

theorem zipSamples_lattice (nx ny nz : Nat) (x0 y0 z0 s : ℚ)
    (labf : ℚ × ℚ × ℚ → String) :
    zipSamples (latticeX nx ny nz x0 y0 z0 s) (latticeY nx ny nz x0 y0 z0 s)
      (latticeZ nx ny nz x0 y0 z0 s) (latticeLab nx ny nz x0 y0 z0 s labf)
    = (latticePts nx ny nz x0 y0 z0 s).map
        (fun p => (p.1, p.2.1, p.2.2, labf p)) := by
  unfold zipSamples latticeX latticeY latticeZ latticeLab
  rw [List.zip_map', List.zip_map', List.zip_map']

theorem xyzBase_xrange (m : LithModel) (x y z : List ℚ) (dxy d_z : ℚ) :
    (xyzBase m x y z dxy d_z).xrange = axisRange x dxy := rfl

theorem xyzBase_yrange (m : LithModel) (x y z : List ℚ) (dxy d_z : ℚ) :
    (xyzBase m x y z dxy d_z).yrange = axisRange y dxy := rfl

theorem xyzBase_zrange (m : LithModel) (x y z : List ℚ) (dxy d_z : ℚ) :
    (xyzBase m x y z dxy d_z).zrange = axisRange z d_z := rfl

theorem xyzBase_numx (m : LithModel) (x y z : List ℚ) (dxy d_z : ℚ) :
    (xyzBase m x y z dxy d_z).numx = axisNum (axisRange x dxy) dxy := rfl

theorem xyzBase_numy (m : LithModel) (x y z : List ℚ) (dxy d_z : ℚ) :
    (xyzBase m x y z dxy d_z).numy = axisNum (axisRange y dxy) dxy := rfl

theorem xyzBase_numz (m : LithModel) (x y z : List ℚ) (dxy d_z : ℚ) :
    (xyzBase m x y z dxy d_z).numz = axisNum (axisRange z d_z) d_z := rfl

theorem xyzBase_lith_list (m : LithModel) (x y z : List ℚ) (dxy d_z : ℚ) :
    (xyzBase m x y z dxy d_z).lith_list = dremove m.lith_list "Generic 1" := rfl

theorem finishGrid_lith_list (m2 : LithModel) :
    (finishGrid m2).lith_list = m2.lith_list := rfl

theorem finishGrid_lith_index (m2 : LithModel) :
    (finishGrid m2).lith_index = fun _ _ _ => -1 := rfl

theorem finishGrid_numx (m2 : LithModel) : (finishGrid m2).numx = m2.numx := rfl

theorem finishGrid_numy (m2 : LithModel) : (finishGrid m2).numy = m2.numy := rfl

theorem finishGrid_numz (m2 : LithModel) : (finishGrid m2).numz = m2.numz := rfl

theorem finishGrid_xrange1 (m2 : LithModel) :
    (finishGrid m2).xrange.1 = m2.xrange.1 := rfl

theorem finishGrid_yrange2 (m2 : LithModel) :
    (finishGrid m2).yrange.2 = m2.yrange.2 := rfl

theorem finishGrid_zrange2 (m2 : LithModel) :
    (finishGrid m2).zrange.2 = m2.zrange.2 := rfl

theorem xyzFill_numx (m3 : LithModel) (x y z : List ℚ) (l : List String) :
    (xyzFill m3 x y z l).numx = m3.numx := rfl

theorem xyzFill_numy (m3 : LithModel) (x y z : List ℚ) (l : List String) :
    (xyzFill m3 x y z l).numy = m3.numy := rfl

theorem xyzFill_numz (m3 : LithModel) (x y z : List ℚ) (l : List String) :
    (xyzFill m3 x y z l).numz = m3.numz := rfl

theorem xyzFill_lith_list (m3 : LithModel) (x y z : List ℚ) (l : List String) :
    (xyzFill m3 x y z l).lith_list = m3.lith_list := rfl

theorem xyzFill_lith_index (m3 : LithModel) (x y z : List ℚ) (l : List String) :
    (xyzFill m3 x y z l).lith_index = (zipSamples x y z l).foldl
      (scatterWrite m3.lith_list m3.xrange m3.yrange m3.zrange m3.dxy m3.d_z)
      m3.lith_index := rfl

theorem buildCatXYZ_numx (rc : Int → Color) (L : List String) (m1 : LithModel) :
    (buildCatXYZ rc L m1).numx = m1.numx :=
  (xyzLithFold_scalars rc L (m1, 0)).2.2.1

theorem buildCatXYZ_numy (rc : Int → Color) (L : List String) (m1 : LithModel) :
    (buildCatXYZ rc L m1).numy = m1.numy :=
  (xyzLithFold_scalars rc L (m1, 0)).2.2.2.1

theorem buildCatXYZ_numz (rc : Int → Color) (L : List String) (m1 : LithModel) :
    (buildCatXYZ rc L m1).numz = m1.numz :=
  (xyzLithFold_scalars rc L (m1, 0)).2.2.2.2.1

theorem buildCatXYZ_xrange (rc : Int → Color) (L : List String) (m1 : LithModel) :
    (buildCatXYZ rc L m1).xrange = m1.xrange :=
  (xyzLithFold_scalars rc L (m1, 0)).2.2.2.2.2.1

theorem buildCatXYZ_yrange (rc : Int → Color) (L : List String) (m1 : LithModel) :
    (buildCatXYZ rc L m1).yrange = m1.yrange :=
  (xyzLithFold_scalars rc L (m1, 0)).2.2.2.2.2.2.1

theorem buildCatXYZ_zrange (rc : Int → Color) (L : List String) (m1 : LithModel) :
    (buildCatXYZ rc L m1).zrange = m1.zrange :=
  (xyzLithFold_scalars rc L (m1, 0)).2.2.2.2.2.2.2.1

theorem buildCatXYZ_cat (rc : Int → Color) (L : List String) (m1 : LithModel)
    (hnone : ∀ n ∈ L, alookup m1.lith_list n = none) (hnd : L.Nodup) :
    (buildCatXYZ rc L m1).lith_list
      = m1.lith_list ++ idxMap (fun t n => (n, xyzGd m1 (0 + t + 1))) 0 L :=
  xyzCatFold rc L m1 0 hnone hnd

theorem mem_latticePts (nx ny nz : Nat) (x0 y0 z0 s : ℚ) (i j k : Nat)
    (hi : i < nx) (hj : j < ny) (hk : k < nz) :
    (x0 + (i : ℚ) * s, y0 + (j : ℚ) * s, z0 + (k : ℚ) * s)
      ∈ latticePts nx ny nz x0 y0 z0 s := by
  unfold latticePts
  rw [List.mem_flatMap]
  refine ⟨i, List.mem_range.mpr hi, ?_⟩
  rw [List.mem_flatMap]
  refine ⟨j, List.mem_range.mpr hj, ?_⟩
  rw [List.mem_map]
  exact ⟨k, List.mem_range.mpr hk, rfl⟩

theorem mem_latticePts_elim (nx ny nz : Nat) (x0 y0 z0 s : ℚ)
    (p : ℚ × ℚ × ℚ) (hp : p ∈ latticePts nx ny nz x0 y0 z0 s) :
    ∃ i j k : Nat, i < nx ∧ j < ny ∧ k < nz ∧
      p = (x0 + (i : ℚ) * s, y0 + (j : ℚ) * s, z0 + (k : ℚ) * s) := by
  unfold latticePts at hp
  rw [List.mem_flatMap] at hp
  obtain ⟨i, hi, hp⟩ := hp
  rw [List.mem_flatMap] at hp
  obtain ⟨j, hj, hp⟩ := hp
  rw [List.mem_map] at hp
  obtain ⟨k, hk, hp⟩ := hp
  rw [List.mem_range] at hi hj hk
  exact ⟨i, j, k, hi, hj, hk, hp.symm⟩

theorem scatterFold_hit (ll : List (String × GeoData)) (xr yr zr : ℚ × ℚ)
    (dxy d_z : ℚ) (S : List Sample) (g : Grid3) (s₀ : Sample) (hmem : s₀ ∈ S)
    (hpw : List.Pairwise (fun a b =>
      scatterCell xr yr zr dxy d_z a ≠ scatterCell xr yr zr dxy d_z b) S) :
    (S.foldl (scatterWrite ll xr yr zr dxy d_z) g)
      (scatterCell xr yr zr dxy d_z s₀).1
      (scatterCell xr yr zr dxy d_z s₀).2.1
      (scatterCell xr yr zr dxy d_z s₀).2.2 = scatterVal ll s₀ :=
  foldl_gridWrite_hit (scatterCell xr yr zr dxy d_z) (scatterVal ll) S g s₀
    hmem hpw

theorem scatterFold_untouched (ll : List (String × GeoData)) (xr yr zr : ℚ × ℚ)
    (dxy d_z : ℚ) (S : List Sample) (g : Grid3) (i j k : Nat)
    (h : ∀ s ∈ S, scatterCell xr yr zr dxy d_z s ≠ (i, j, k)) :
    (S.foldl (scatterWrite ll xr yr zr dxy d_z) g) i j k = g i j k :=
  foldl_gridWrite_untouched (scatterCell xr yr zr dxy d_z) (scatterVal ll)
    S g i j k h

theorem scatterCell_lattice (x0 y0 z0 s : ℚ) (hs : 0 < s) (nym nzm : Nat)
    (xr yr zr : ℚ × ℚ) (hx1 : xr.1 = x0 - s/2)
    (hy2 : yr.2 = y0 + (nym : ℚ) * s + s/2)
    (hz2 : zr.2 = z0 + (nzm : ℚ) * s + s/2)
    (lab : String) (i j k : Nat) (hj : j ≤ nym) (hk : k ≤ nzm) :
    scatterCell xr yr zr s s
      (x0 + (i : ℚ) * s, y0 + (j : ℚ) * s, z0 + (k : ℚ) * s, lab)
    = (i, nym - j, nzm - k) := by
  unfold scatterCell
  simp only []
  rw [hx1, hy2, hz2]
  have e1 : (x0 + (i : ℚ) * s) - (x0 - s/2) = (i : ℚ) * s + s/2 := by ring
  have e2 : (y0 + (nym : ℚ) * s + s/2) - (y0 + (j : ℚ) * s)
      = ((nym : ℚ) * s + s/2) - (j : ℚ) * s := by ring
  have e3 : (z0 + (nzm : ℚ) * s + s/2) - (z0 + (k : ℚ) * s)
      = ((nzm : ℚ) * s + s/2) - (k : ℚ) * s := by ring
  rw [e1, e2, e3, cell_calc s hs, cell_calc_sub s hs nym j hj,
    cell_calc_sub s hs nzm k hk]
  simp

/-- The scatter write loop over a row-major lattice: every lattice sample
lands in its own cell (i, ny-1-j, nz-1-k) holding its label's stored
index, and cells beyond the sample block keep the -1 sentinel. -/
theorem latticeFill_cells (nx ny nz : Nat) (x0 y0 z0 s : ℚ)
    (labf : ℚ × ℚ × ℚ → String) (F : LithModel) (hs : 0 < s)
    (hdxy : F.dxy = s) (hdz : F.d_z = s)
    (hx1 : F.xrange.1 = x0 - s/2)
    (hy2 : F.yrange.2 = y0 + ((ny - 1 : Nat) : ℚ) * s + s/2)
    (hz2 : F.zrange.2 = z0 + ((nz - 1 : Nat) : ℚ) * s + s/2)
    (hgrid : F.lith_index = fun _ _ _ => -1) :
    (∀ i j k : Nat, i < nx → j < ny → k < nz →
      (xyzFill F (latticeX nx ny nz x0 y0 z0 s) (latticeY nx ny nz x0 y0 z0 s)
        (latticeZ nx ny nz x0 y0 z0 s)
        (latticeLab nx ny nz x0 y0 z0 s labf)).lith_index
          i (ny - 1 - j) (nz - 1 - k)
        = scatterVal F.lith_list
            (x0 + (i : ℚ) * s, y0 + (j : ℚ) * s, z0 + (k : ℚ) * s,
              labf (x0 + (i : ℚ) * s, y0 + (j : ℚ) * s, z0 + (k : ℚ) * s)))
    ∧ (∀ i j k : Nat, nx ≤ i ∨ ny ≤ j ∨ nz ≤ k →
      (xyzFill F (latticeX nx ny nz x0 y0 z0 s) (latticeY nx ny nz x0 y0 z0 s)
        (latticeZ nx ny nz x0 y0 z0 s)
        (latticeLab nx ny nz x0 y0 z0 s labf)).lith_index i j k = -1) := by
  have hcellAll : ∀ i j k : Nat, i < nx → j < ny → k < nz →
      scatterCell F.xrange F.yrange F.zrange F.dxy F.d_z
        (x0 + (i : ℚ) * s, y0 + (j : ℚ) * s, z0 + (k : ℚ) * s,
          labf (x0 + (i : ℚ) * s, y0 + (j : ℚ) * s, z0 + (k : ℚ) * s))
        = (i, ny - 1 - j, nz - 1 - k) := by
    intro i j k hi hj hk
    rw [hdxy, hdz]
    exact scatterCell_lattice x0 y0 z0 s hs (ny - 1) (nz - 1) F.xrange F.yrange
      F.zrange hx1 hy2 hz2 _ i j k (by omega) (by omega)
  have hzip := zipSamples_lattice nx ny nz x0 y0 z0 s labf
  have hpw : List.Pairwise (fun a b =>
      scatterCell F.xrange F.yrange F.zrange F.dxy F.d_z a ≠
      scatterCell F.xrange F.yrange F.zrange F.dxy F.d_z b)
      ((latticePts nx ny nz x0 y0 z0 s).map
        (fun p => (p.1, p.2.1, p.2.2, labf p))) := by
    rw [List.pairwise_map]
    refine latticePts_pairwise_cells nx ny nz x0 y0 z0 s
      (fun p => scatterCell F.xrange F.yrange F.zrange F.dxy F.d_z
        (p.1, p.2.1, p.2.2, labf p)) ?_
    intro i j k hi hj hk
    exact hcellAll i j k hi hj hk
  constructor
  · intro i j k hi hj hk
    rw [xyzFill_lith_index, hzip]
    have hmem : (x0 + (i : ℚ) * s, y0 + (j : ℚ) * s, z0 + (k : ℚ) * s,
        labf (x0 + (i : ℚ) * s, y0 + (j : ℚ) * s, z0 + (k : ℚ) * s))
        ∈ (latticePts nx ny nz x0 y0 z0 s).map
          (fun p => (p.1, p.2.1, p.2.2, labf p)) := by
      rw [List.mem_map]
      exact ⟨_, mem_latticePts nx ny nz x0 y0 z0 s i j k hi hj hk, rfl⟩
    have hhit := scatterFold_hit F.lith_list F.xrange F.yrange F.zrange
      F.dxy F.d_z _ F.lith_index _ hmem hpw
    rw [hcellAll i j k hi hj hk] at hhit
    exact hhit
  · intro i j k hout
    rw [xyzFill_lith_index, hzip]
    have huntouched : ∀ s' ∈ (latticePts nx ny nz x0 y0 z0 s).map
        (fun p => (p.1, p.2.1, p.2.2, labf p)),
        scatterCell F.xrange F.yrange F.zrange F.dxy F.d_z s' ≠ (i, j, k) := by
      intro s' hs'
      rw [List.mem_map] at hs'
      obtain ⟨p, hp, hps⟩ := hs'
      obtain ⟨i', j', k', hi', hj', hk', hpe⟩ :=
        mem_latticePts_elim nx ny nz x0 y0 z0 s p hp
      subst hpe
      subst hps
      rw [hcellAll i' j' k' hi' hj' hk']
      intro he
      simp only [Prod.mk.injEq] at he
      omega
    rw [scatterFold_untouched F.lith_list F.xrange F.yrange F.zrange
      F.dxy F.d_z _ F.lith_index i j k huntouched, hgrid]

/-- C4 (amended): importing an exact regular lattice with spacing s on
every axis, presented in row-major order, computes per-axis extents
[min - s/2, max + s/2], derives numx = extent-span/s + 1 = nx + 1 on each
axis - one more than the number of distinct coordinates - writes every
sample into its own distinct cell (i, ny-1-j, nz-1-k) holding that label's
catalogue index, and leaves every cell of the extra last column, row and
layer holding the -1 unset sentinel. -/
theorem importXYZ_lattice (nx ny nz : Nat) (x0 y0 z0 s : ℚ)
    (labf : ℚ × ℚ × ℚ → String) (m : LithModel) (rc : Int → Color)
    (hnx : 2 ≤ nx) (hny : 2 ≤ ny) (hnz : 2 ≤ nz) (hs : 0 < s)
    (hml : m.lith_list = []) :
    ∃ m', importXYZ m (latticeX nx ny nz x0 y0 z0 s)
        (latticeY nx ny nz x0 y0 z0 s) (latticeZ nx ny nz x0 y0 z0 s)
        (latticeLab nx ny nz x0 y0 z0 s labf) rc = Except.ok m' ∧
      m'.dxy = s ∧ m'.d_z = s ∧
      axisRange (latticeX nx ny nz x0 y0 z0 s) s
        = (x0 - s/2, x0 + ((nx - 1 : Nat) : ℚ) * s + s/2) ∧
      axisRange (latticeY nx ny nz x0 y0 z0 s) s
        = (y0 - s/2, y0 + ((ny - 1 : Nat) : ℚ) * s + s/2) ∧
      axisRange (latticeZ nx ny nz x0 y0 z0 s) s
        = (z0 - s/2, z0 + ((nz - 1 : Nat) : ℚ) * s + s/2) ∧
      m'.numx = (nx : Int) + 1 ∧ m'.numy = (ny : Int) + 1 ∧
      m'.numz = (nz : Int) + 1 ∧
      (∀ i j k : Nat, i < nx → j < ny → k < nz →
        ∃ gd, alookup m'.lith_list
            (labf (x0 + (i : ℚ) * s, y0 + (j : ℚ) * s, z0 + (k : ℚ) * s))
            = some gd ∧ 1 ≤ gd.lith_index ∧
          m'.lith_index i (ny - 1 - j) (nz - 1 - k) = gd.lith_index) ∧
      (∀ i j k : Nat, nx ≤ i ∨ ny ≤ j ∨ nz ≤ k → m'.lith_index i j k = -1) := by
  have hsne : s ≠ 0 := ne_of_gt hs
  have hfsX : firstSeen (latticeX nx ny nz x0 y0 z0 s) = arith x0 s nx :=
    firstSeen_latticeX nx ny nz x0 y0 z0 s (by omega) (by omega) hsne
  have hfsY : firstSeen (latticeY nx ny nz x0 y0 z0 s) = arith y0 s ny :=
    firstSeen_latticeY nx ny nz x0 y0 z0 s (by omega) (by omega) hsne
  have hfsZ : firstSeen (latticeZ nx ny nz x0 y0 z0 s) = arith z0 s nz :=
    firstSeen_latticeZ nx ny nz x0 y0 z0 s (by omega) (by omega) hsne
  have haxX : axisCell (latticeX nx ny nz x0 y0 z0 s) = Except.ok s :=
    axisCell_of_firstSeen _ x0 s nx hfsX hnx hs
  have haxY : axisCell (latticeY nx ny nz x0 y0 z0 s) = Except.ok s :=
    axisCell_of_firstSeen _ y0 s ny hfsY hny hs
  have haxZ : axisCell (latticeZ nx ny nz x0 y0 z0 s) = Except.ok s :=
    axisCell_of_firstSeen _ z0 s nz hfsZ hnz hs
  have hARX : axisRange (latticeX nx ny nz x0 y0 z0 s) s
      = (x0 - s/2, x0 + ((nx - 1 : Nat) : ℚ) * s + s/2) := by
    refine axisRange_of_firstSeen _ x0 s (nx - 1) s ?_ (le_of_lt hs)
    rw [show nx - 1 + 1 = nx by omega]
    exact hfsX
  have hARY : axisRange (latticeY nx ny nz x0 y0 z0 s) s
      = (y0 - s/2, y0 + ((ny - 1 : Nat) : ℚ) * s + s/2) := by
    refine axisRange_of_firstSeen _ y0 s (ny - 1) s ?_ (le_of_lt hs)
    rw [show ny - 1 + 1 = ny by omega]
    exact hfsY
  have hARZ : axisRange (latticeZ nx ny nz x0 y0 z0 s) s
      = (z0 - s/2, z0 + ((nz - 1 : Nat) : ℚ) * s + s/2) := by
    refine axisRange_of_firstSeen _ z0 s (nz - 1) s ?_ (le_of_lt hs)
    rw [show nz - 1 + 1 = nz by omega]
    exact hfsZ
  refine ⟨xyzFill (finishGrid (buildCatXYZ rc
      (npUniqueStr (latticeLab nx ny nz x0 y0 z0 s labf))
      (xyzBase m (latticeX nx ny nz x0 y0 z0 s) (latticeY nx ny nz x0 y0 z0 s)
        (latticeZ nx ny nz x0 y0 z0 s) (min s s) s)))
    (latticeX nx ny nz x0 y0 z0 s) (latticeY nx ny nz x0 y0 z0 s)
    (latticeZ nx ny nz x0 y0 z0 s) (latticeLab nx ny nz x0 y0 z0 s labf),
    by simp [importXYZ, haxX, haxY, haxZ, Except.bind, Bind.bind],
    ?_, ?_, hARX, hARY, hARZ, ?_, ?_, ?_, ?_, ?_⟩
  · rw [xyzFill_dxy, finishGrid_dxy, buildCatXYZ_dxy, xyzBase_dxy]
    exact min_self s
  · rw [xyzFill_d_z, finishGrid_d_z, buildCatXYZ_d_z, xyzBase_d_z]
  · rw [xyzFill_numx, finishGrid_numx, buildCatXYZ_numx, xyzBase_numx,
      min_self, hARX, axisNum_lattice x0 s (nx - 1) hs]
    have : ((nx - 1 : Nat) : Int) = (nx : Int) - 1 := by omega
    rw [this]
    ring
  · rw [xyzFill_numy, finishGrid_numy, buildCatXYZ_numy, xyzBase_numy,
      min_self, hARY, axisNum_lattice y0 s (ny - 1) hs]
    have : ((ny - 1 : Nat) : Int) = (ny : Int) - 1 := by omega
    rw [this]
    ring
  · rw [xyzFill_numz, finishGrid_numz, buildCatXYZ_numz, xyzBase_numz,
      hARZ, axisNum_lattice z0 s (nz - 1) hs]
    have : ((nz - 1 : Nat) : Int) = (nz : Int) - 1 := by omega
    rw [this]
    ring
  · have hFdxy : (finishGrid (buildCatXYZ rc
        (npUniqueStr (latticeLab nx ny nz x0 y0 z0 s labf))
        (xyzBase m (latticeX nx ny nz x0 y0 z0 s) (latticeY nx ny nz x0 y0 z0 s)
          (latticeZ nx ny nz x0 y0 z0 s) (min s s) s))).dxy = s := by
      rw [finishGrid_dxy, buildCatXYZ_dxy, xyzBase_dxy]
      exact min_self s
    have hFdz : (finishGrid (buildCatXYZ rc
        (npUniqueStr (latticeLab nx ny nz x0 y0 z0 s labf))
        (xyzBase m (latticeX nx ny nz x0 y0 z0 s) (latticeY nx ny nz x0 y0 z0 s)
          (latticeZ nx ny nz x0 y0 z0 s) (min s s) s))).d_z = s := by
      rw [finishGrid_d_z, buildCatXYZ_d_z, xyzBase_d_z]
    have hFx1 : (finishGrid (buildCatXYZ rc
        (npUniqueStr (latticeLab nx ny nz x0 y0 z0 s labf))
        (xyzBase m (latticeX nx ny nz x0 y0 z0 s) (latticeY nx ny nz x0 y0 z0 s)
          (latticeZ nx ny nz x0 y0 z0 s) (min s s) s))).xrange.1 = x0 - s/2 := by
      rw [finishGrid_xrange1, buildCatXYZ_xrange, xyzBase_xrange, min_self, hARX]
    have hFy2 : (finishGrid (buildCatXYZ rc
        (npUniqueStr (latticeLab nx ny nz x0 y0 z0 s labf))
        (xyzBase m (latticeX nx ny nz x0 y0 z0 s) (latticeY nx ny nz x0 y0 z0 s)
          (latticeZ nx ny nz x0 y0 z0 s) (min s s) s))).yrange.2
        = y0 + ((ny - 1 : Nat) : ℚ) * s + s/2 := by
      rw [finishGrid_yrange2, buildCatXYZ_yrange, xyzBase_yrange, min_self, hARY]
    have hFz2 : (finishGrid (buildCatXYZ rc
        (npUniqueStr (latticeLab nx ny nz x0 y0 z0 s labf))
        (xyzBase m (latticeX nx ny nz x0 y0 z0 s) (latticeY nx ny nz x0 y0 z0 s)
          (latticeZ nx ny nz x0 y0 z0 s) (min s s) s))).zrange.2
        = z0 + ((nz - 1 : Nat) : ℚ) * s + s/2 := by
      rw [finishGrid_zrange2, buildCatXYZ_zrange, xyzBase_zrange, hARZ]
    have hcl := latticeFill_cells nx ny nz x0 y0 z0 s labf _ hs hFdxy hFdz
      hFx1 hFy2 hFz2 (finishGrid_lith_index _)
    have hBll : (xyzBase m (latticeX nx ny nz x0 y0 z0 s)
        (latticeY nx ny nz x0 y0 z0 s) (latticeZ nx ny nz x0 y0 z0 s)
        (min s s) s).lith_list = [] := by
      rw [xyzBase_lith_list, hml]
      rfl
    have hnone : ∀ n ∈ npUniqueStr (latticeLab nx ny nz x0 y0 z0 s labf),
        alookup (xyzBase m (latticeX nx ny nz x0 y0 z0 s)
          (latticeY nx ny nz x0 y0 z0 s) (latticeZ nx ny nz x0 y0 z0 s)
          (min s s) s).lith_list n = none := by
      intro n _
      rw [hBll]
      rfl
    have hcatF : (finishGrid (buildCatXYZ rc
        (npUniqueStr (latticeLab nx ny nz x0 y0 z0 s labf))
        (xyzBase m (latticeX nx ny nz x0 y0 z0 s) (latticeY nx ny nz x0 y0 z0 s)
          (latticeZ nx ny nz x0 y0 z0 s) (min s s) s))).lith_list
        = idxMap (fun t n => (n, xyzGd (xyzBase m (latticeX nx ny nz x0 y0 z0 s)
            (latticeY nx ny nz x0 y0 z0 s) (latticeZ nx ny nz x0 y0 z0 s)
            (min s s) s) (0 + t + 1))) 0
          (npUniqueStr (latticeLab nx ny nz x0 y0 z0 s labf)) := by
      rw [finishGrid_lith_list, buildCatXYZ_cat rc _ _ hnone
        (npUniqueStr_nodup _), hBll, List.nil_append]
    intro i j k hi hj hk
    have hlabmem : labf (x0 + (i : ℚ) * s, y0 + (j : ℚ) * s, z0 + (k : ℚ) * s)
        ∈ npUniqueStr (latticeLab nx ny nz x0 y0 z0 s labf) := by
      rw [npUniqueStr_mem]
      unfold latticeLab
      rw [List.mem_map]
      exact ⟨_, mem_latticePts nx ny nz x0 y0 z0 s i j k hi hj hk, rfl⟩
    obtain ⟨t, hlook, _⟩ := alookup_idxMap
      (fun t => xyzGd (xyzBase m (latticeX nx ny nz x0 y0 z0 s)
        (latticeY nx ny nz x0 y0 z0 s) (latticeZ nx ny nz x0 y0 z0 s)
        (min s s) s) (0 + t + 1))
      (npUniqueStr (latticeLab nx ny nz x0 y0 z0 s labf)) _ 0 hlabmem
    refine ⟨xyzGd (xyzBase m (latticeX nx ny nz x0 y0 z0 s)
        (latticeY nx ny nz x0 y0 z0 s) (latticeZ nx ny nz x0 y0 z0 s)
        (min s s) s) (0 + t + 1), ?_, ?_, ?_⟩
    · rw [xyzFill_lith_list, hcatF]
      exact hlook
    · rw [xyzGd_lith_index]
      omega
    · rw [hcl.1 i j k hi hj hk]
      unfold scatterVal
      simp only []
      rw [hcatF, hlook]
  · intro i j k hout
    have hFdxy : (finishGrid (buildCatXYZ rc
        (npUniqueStr (latticeLab nx ny nz x0 y0 z0 s labf))
        (xyzBase m (latticeX nx ny nz x0 y0 z0 s) (latticeY nx ny nz x0 y0 z0 s)
          (latticeZ nx ny nz x0 y0 z0 s) (min s s) s))).dxy = s := by
      rw [finishGrid_dxy, buildCatXYZ_dxy, xyzBase_dxy]
      exact min_self s
    have hFdz : (finishGrid (buildCatXYZ rc
        (npUniqueStr (latticeLab nx ny nz x0 y0 z0 s labf))
        (xyzBase m (latticeX nx ny nz x0 y0 z0 s) (latticeY nx ny nz x0 y0 z0 s)
          (latticeZ nx ny nz x0 y0 z0 s) (min s s) s))).d_z = s := by
      rw [finishGrid_d_z, buildCatXYZ_d_z, xyzBase_d_z]
    have hFx1 : (finishGrid (buildCatXYZ rc
        (npUniqueStr (latticeLab nx ny nz x0 y0 z0 s labf))
        (xyzBase m (latticeX nx ny nz x0 y0 z0 s) (latticeY nx ny nz x0 y0 z0 s)
          (latticeZ nx ny nz x0 y0 z0 s) (min s s) s))).xrange.1 = x0 - s/2 := by
      rw [finishGrid_xrange1, buildCatXYZ_xrange, xyzBase_xrange, min_self, hARX]
    have hFy2 : (finishGrid (buildCatXYZ rc
        (npUniqueStr (latticeLab nx ny nz x0 y0 z0 s labf))
        (xyzBase m (latticeX nx ny nz x0 y0 z0 s) (latticeY nx ny nz x0 y0 z0 s)
          (latticeZ nx ny nz x0 y0 z0 s) (min s s) s))).yrange.2
        = y0 + ((ny - 1 : Nat) : ℚ) * s + s/2 := by
      rw [finishGrid_yrange2, buildCatXYZ_yrange, xyzBase_yrange, min_self, hARY]
    have hFz2 : (finishGrid (buildCatXYZ rc
        (npUniqueStr (latticeLab nx ny nz x0 y0 z0 s labf))
        (xyzBase m (latticeX nx ny nz x0 y0 z0 s) (latticeY nx ny nz x0 y0 z0 s)
          (latticeZ nx ny nz x0 y0 z0 s) (min s s) s))).zrange.2
        = z0 + ((nz - 1 : Nat) : ℚ) * s + s/2 := by
      rw [finishGrid_zrange2, buildCatXYZ_zrange, xyzBase_zrange, hARZ]
    have hcl := latticeFill_cells nx ny nz x0 y0 z0 s labf _ hs hFdxy hFdz
      hFx1 hFy2 hFz2 (finishGrid_lith_index _)
    exact hcl.2 i j k hout

/-- Grid-dimension observation on an import result. -/
def importNumx (r : Except PyErr LithModel) : Option Int :=
  match r with
  | Except.ok m => some m.numx
  | Except.error _ => none

/-- Grid-cell observation on an import result. -/
def importCell (r : Except PyErr LithModel) (i j k : Nat) : Option Int :=
  match r with
  | Except.ok m => some (m.lith_index i j k)
  | Except.error _ => none

/-- C4 counterexample: importing the 2-by-2-by-2 unit lattice at the
origin produces a 3-by-3-by-3 grid (numx = span/s + 1 = 3 per axis, one
more than the two distinct coordinates), and the cell (2,2,2) of the
result still holds the -1 unset sentinel: cells of the extra last column,
row and layer are never written, contradicting the claim that no cell of
the resulting grid is left unset. -/
theorem importXYZ_lattice_counterexample :
    importNumx (importXYZ {} (latticeX 2 2 2 0 0 0 1) (latticeY 2 2 2 0 0 0 1)
      (latticeZ 2 2 2 0 0 0 1) (latticeLab 2 2 2 0 0 0 1 (fun _ => "A"))
      (fun _ => (0, 0, 0))) = some 3 ∧
    importCell (importXYZ {} (latticeX 2 2 2 0 0 0 1) (latticeY 2 2 2 0 0 0 1)
      (latticeZ 2 2 2 0 0 0 1) (latticeLab 2 2 2 0 0 0 1 (fun _ => "A"))
      (fun _ => (0, 0, 0))) 2 2 2 = some (-1) := by
  have hone : (0:ℚ) < 1 := by norm_num
  have hfsX : firstSeen (latticeX 2 2 2 0 0 0 1) = arith 0 1 2 :=
    firstSeen_latticeX 2 2 2 0 0 0 1 (by norm_num) (by norm_num) (by norm_num)
  have hfsY : firstSeen (latticeY 2 2 2 0 0 0 1) = arith 0 1 2 :=
    firstSeen_latticeY 2 2 2 0 0 0 1 (by norm_num) (by norm_num) (by norm_num)
  have hfsZ : firstSeen (latticeZ 2 2 2 0 0 0 1) = arith 0 1 2 :=
    firstSeen_latticeZ 2 2 2 0 0 0 1 (by norm_num) (by norm_num) (by norm_num)
  have haxX : axisCell (latticeX 2 2 2 0 0 0 1) = Except.ok 1 :=
    axisCell_of_firstSeen _ 0 1 2 hfsX (by norm_num) hone
  have haxY : axisCell (latticeY 2 2 2 0 0 0 1) = Except.ok 1 :=
    axisCell_of_firstSeen _ 0 1 2 hfsY (by norm_num) hone
  have haxZ : axisCell (latticeZ 2 2 2 0 0 0 1) = Except.ok 1 :=
    axisCell_of_firstSeen _ 0 1 2 hfsZ (by norm_num) hone
  have hARX : axisRange (latticeX 2 2 2 0 0 0 1) 1 = (0 - 1/2, 0 + (1:ℚ) * 1 + 1/2) := by
    have := axisRange_of_firstSeen (latticeX 2 2 2 0 0 0 1) 0 1 1 1 hfsX (by norm_num)
    simpa using this
  have hARY : axisRange (latticeY 2 2 2 0 0 0 1) 1 = (0 - 1/2, 0 + (1:ℚ) * 1 + 1/2) := by
    have := axisRange_of_firstSeen (latticeY 2 2 2 0 0 0 1) 0 1 1 1 hfsY (by norm_num)
    simpa using this
  have hARZ : axisRange (latticeZ 2 2 2 0 0 0 1) 1 = (0 - 1/2, 0 + (1:ℚ) * 1 + 1/2) := by
    have := axisRange_of_firstSeen (latticeZ 2 2 2 0 0 0 1) 0 1 1 1 hfsZ (by norm_num)
    simpa using this
  have hrun : importXYZ {} (latticeX 2 2 2 0 0 0 1) (latticeY 2 2 2 0 0 0 1)
      (latticeZ 2 2 2 0 0 0 1) (latticeLab 2 2 2 0 0 0 1 (fun _ => "A"))
      (fun _ => (0, 0, 0))
      = Except.ok (xyzFill (finishGrid (buildCatXYZ (fun _ => (0, 0, 0))
          (npUniqueStr (latticeLab 2 2 2 0 0 0 1 (fun _ => "A")))
          (xyzBase {} (latticeX 2 2 2 0 0 0 1) (latticeY 2 2 2 0 0 0 1)
            (latticeZ 2 2 2 0 0 0 1) (min 1 1) 1)))
        (latticeX 2 2 2 0 0 0 1) (latticeY 2 2 2 0 0 0 1)
        (latticeZ 2 2 2 0 0 0 1) (latticeLab 2 2 2 0 0 0 1 (fun _ => "A"))) := by
    simp [importXYZ, haxX, haxY, haxZ, Except.bind, Bind.bind]
  have hFdxy : (finishGrid (buildCatXYZ (fun _ => (0, 0, 0))
      (npUniqueStr (latticeLab 2 2 2 0 0 0 1 (fun _ => "A")))
      (xyzBase {} (latticeX 2 2 2 0 0 0 1) (latticeY 2 2 2 0 0 0 1)
        (latticeZ 2 2 2 0 0 0 1) (min 1 1) 1))).dxy = 1 := by
    rw [finishGrid_dxy, buildCatXYZ_dxy, xyzBase_dxy]
    norm_num
  have hFdz : (finishGrid (buildCatXYZ (fun _ => (0, 0, 0))
      (npUniqueStr (latticeLab 2 2 2 0 0 0 1 (fun _ => "A")))
      (xyzBase {} (latticeX 2 2 2 0 0 0 1) (latticeY 2 2 2 0 0 0 1)
        (latticeZ 2 2 2 0 0 0 1) (min 1 1) 1))).d_z = 1 := by
    rw [finishGrid_d_z, buildCatXYZ_d_z, xyzBase_d_z]
  have hFx1 : (finishGrid (buildCatXYZ (fun _ => (0, 0, 0))
      (npUniqueStr (latticeLab 2 2 2 0 0 0 1 (fun _ => "A")))
      (xyzBase {} (latticeX 2 2 2 0 0 0 1) (latticeY 2 2 2 0 0 0 1)
        (latticeZ 2 2 2 0 0 0 1) (min 1 1) 1))).xrange.1 = 0 - 1/2 := by
    rw [finishGrid_xrange1, buildCatXYZ_xrange, xyzBase_xrange, min_self, hARX]
  have hFy2 : (finishGrid (buildCatXYZ (fun _ => (0, 0, 0))
      (npUniqueStr (latticeLab 2 2 2 0 0 0 1 (fun _ => "A")))
      (xyzBase {} (latticeX 2 2 2 0 0 0 1) (latticeY 2 2 2 0 0 0 1)
        (latticeZ 2 2 2 0 0 0 1) (min 1 1) 1))).yrange.2
      = 0 + (((2 : Nat) - 1 : Nat) : ℚ) * 1 + 1/2 := by
    rw [finishGrid_yrange2, buildCatXYZ_yrange, xyzBase_yrange, min_self, hARY]
    norm_num
  have hFz2 : (finishGrid (buildCatXYZ (fun _ => (0, 0, 0))
      (npUniqueStr (latticeLab 2 2 2 0 0 0 1 (fun _ => "A")))
      (xyzBase {} (latticeX 2 2 2 0 0 0 1) (latticeY 2 2 2 0 0 0 1)
        (latticeZ 2 2 2 0 0 0 1) (min 1 1) 1))).zrange.2
      = 0 + (((2 : Nat) - 1 : Nat) : ℚ) * 1 + 1/2 := by
    rw [finishGrid_zrange2, buildCatXYZ_zrange, xyzBase_zrange, hARZ]
    norm_num
  have hcl := latticeFill_cells 2 2 2 0 0 0 1 (fun _ => "A") _ hone hFdxy hFdz
    hFx1 hFy2 hFz2 (finishGrid_lith_index _)
  constructor
  · rw [hrun]
    simp only [importNumx]
    rw [xyzFill_numx, finishGrid_numx, buildCatXYZ_numx, xyzBase_numx,
      min_self, hARX]
    norm_num [axisNum, pytrunc]
  · rw [hrun]
    simp only [importCell]
    rw [hcl.2 2 2 2 (Or.inl (le_refl 2))]

theorem importXYZ_lattice_witness :
    importNumx (importXYZ {} (latticeX 2 3 2 7 8 9 2) (latticeY 2 3 2 7 8 9 2)
      (latticeZ 2 3 2 7 8 9 2) (latticeLab 2 3 2 7 8 9 2 (fun _ => "B"))
      (fun _ => (1, 1, 1))) = some 3 := by
  obtain ⟨m', hrun, _, _, _, _, _, hnumx, _⟩ :=
    importXYZ_lattice 2 3 2 7 8 9 2 (fun _ => "B") {} (fun _ => (1, 1, 1))
      (by norm_num) (by norm_num) (by norm_num) (by norm_num) rfl
  rw [hrun]
  simp only [importNumx]
  rw [hnumx]
  norm_num

/-- C7 counterexample: on a source whose z axis has the single distinct
value 5, the scatter importer surfaces IndexError (the unhandled numpy
exception from dz_u[0]), which is not the DegenerateAxis error the claim
requires. -/
theorem importXYZ_degenerate_axis_counterexample :
    importXYZ {} [0, 2] [0, 2] [5, 5] ["A", "B"] (fun _ => (0, 0, 0))
      = Except.error PyErr.indexError ∧
    (Except.error PyErr.indexError : Except PyErr LithModel) ≠
      Except.error PyErr.degenerateAxis := by
  constructor
  · have haz : axisCell [5, 5] = Except.error PyErr.indexError := by
      norm_num [axisCell, firstSeen, firstSeenFrom, diffs]
    have hax : axisCell [0, 2] = Except.ok 2 := by
      norm_num [axisCell, firstSeen, firstSeenFrom, diffs, listMax, List.headI]
    simp [importXYZ, hax, haz, Except.bind, Bind.bind]
  · intro h
    cases h

/-- The raster layer names the merge blends, the whitelist of acceptall. -/
def mergeNames : List String :=
  ["DTM Dataset", "Magnetic Dataset", "Gravity Dataset",
   "Study Area Dataset", "Gravity Regional"]

/-- Union of two extent intervals: acceptall concatenates the two pairs,
sorts the four numbers and keeps the first and last, which are the
minimum and the maximum. -/
def unionRange (a b : ℚ × ℚ) : ℚ × ℚ :=
  (min (min a.1 a.2) (min b.1 b.2), max (max a.1 a.2) (max b.1 b.2))

/-- One turn of acceptall's raster loop over master's layer names: a
whitelisted layer present in both models is blended with gmerge; the
blend result replaces master's entry and the in-place mutated slave
object stays under slave's entry. -/
def mergeRasterStep (rp : ReprojFn) (xr yr : ℚ × ℚ)
    (p : List (String × Raster2D) × List (String × Raster2D)) (k : String) :
    List (String × Raster2D) × List (String × Raster2D) :=
  if k ∈ mergeNames then
    match alookup p.2 k, alookup p.1 k with
    | some sv, some mv =>
        let t := gmerge rp mv sv (some xr) (some yr)
        (dinsert p.1 k t.1, dinsert p.2 k t.2.2)
    | _, _ => p
  else p

/-- The raster loop of acceptall, folded over master's layer names. -/
def mergeGriddata (rp : ReprojFn) (xr yr : ℚ × ℚ)
    (gm gs : List (String × Raster2D)) :
    List (String × Raster2D) × List (String × Raster2D) :=
  (dkeys gm).foldl (mergeRasterStep rp xr yr) (gm, gs)

/-- The union-grid column count of acceptall: int(xextent // dxy), with
master's horizontal spacing. -/
def unionCols (dm ds : LithModel) : Int :=
  pyfdiv ((unionRange dm.xrange ds.xrange).2
    - (unionRange dm.xrange ds.xrange).1) dm.dxy

/-- The union-grid row count: int(yextent // dxy), again with dxy. -/
def unionRows (dm ds : LithModel) : Int :=
  pyfdiv ((unionRange dm.yrange ds.yrange).2
    - (unionRange dm.yrange ds.yrange).1) dm.dxy

/-- The union-grid layer count: int(zextent // d_z). -/
def unionLayers (dm ds : LithModel) : Int :=
  pyfdiv ((unionRange dm.zrange ds.zrange).2
    - (unionRange dm.zrange ds.zrange).1) dm.d_z

/-- The first phase of acceptall: blend the whitelisted rasters, then
resize both models onto the union extent with datmaster.update and
datslave.update. -/
def mergeUpdated (rp : ReprojFn) (dm ds : LithModel) : LithModel × LithModel :=
  let gg := mergeGriddata rp (unionRange dm.xrange ds.xrange)
    (unionRange dm.yrange ds.yrange) dm.griddata ds.griddata
  (update { dm with griddata := gg.1 }
     (unionCols dm ds) (unionRows dm ds) (unionLayers dm ds)
     (unionRange dm.xrange ds.xrange).1 (unionRange dm.yrange ds.yrange).2
     (unionRange dm.zrange ds.zrange).2 dm.dxy dm.d_z,
   update { ds with griddata := gg.2 }
     (unionCols dm ds) (unionRows dm ds) (unionLayers dm ds)
     (unionRange dm.xrange ds.xrange).1 (unionRange dm.yrange ds.yrange).2
     (unionRange dm.zrange ds.zrange).2 dm.dxy dm.d_z)

/-- The running state of acceptall's relabeling loop: the two mutated
models, the replacement colour table and the lithcnt counter. -/
structure MergeState where
  master : LithModel
  slave : LithModel
  newmlut : List (Int × Color)
  lithcnt : Int

/-- One turn of the relabeling loop over the unioned lithology names:
Background is skipped (but consumes no counter turn), every other name
advances lithcnt; if the slave holds the name, the slave's matching grid
cells are raised to lithcnt and its catalogue entry re-indexed to
lithcnt - 9000, and likewise for the master afterwards (the master's
colour write overwrites the slave's).  A Python dict read mlut[i] whose
key is absent raises KeyError; the colour lookups are totalised with a
black default, which no claim observes. -/
def relabelStep (st : MergeState) (lith : String) : MergeState :=
  if lith = "Background" then st
  else
    let cnt := st.lithcnt + 1
    let p1 : LithModel × List (Int × Color) :=
      match alookup st.slave.lith_list lith with
      | some gd =>
          ({ st.slave with
              lith_index := gridSubst st.slave.lith_index gd.lith_index cnt
              lith_list := dupdate st.slave.lith_list lith
                (fun g => { g with lith_index := cnt - 9000 }) },
           dinsert st.newmlut (cnt - 9000)
             ((alookup st.slave.mlut gd.lith_index).getD ((0, 0, 0) : Color)))
      | none => (st.slave, st.newmlut)
    let p2 : LithModel × List (Int × Color) :=
      match alookup st.master.lith_list lith with
      | some gd =>
          ({ st.master with
              lith_index := gridSubst st.master.lith_index gd.lith_index cnt
              lith_list := dupdate st.master.lith_list lith
                (fun g => { g with lith_index := cnt - 9000 }) },
           dinsert p1.2 (cnt - 9000)
             ((alookup st.master.mlut gd.lith_index).getD ((0, 0, 0) : Color)))
      | none => (st.master, p1.2)
    { master := p2.1, slave := p1.1, newmlut := p2.2, lithcnt := cnt }

/-- The relabeling loop of acceptall, folded over the iteration order of
the Python set union of the two catalogues' names.  Python leaves a
set's iteration order unspecified, so the order is a parameter. -/
def mergeState (rp : ReprojFn) (order : List String)
    (dm ds : LithModel) : MergeState :=
  order.foldl relabelStep
    { master := (mergeUpdated rp dm ds).1
      slave := (mergeUpdated rp dm ds).2
      newmlut := [(0, (alookup (mergeUpdated rp dm ds).1.mlut 0).getD
        ((0, 0, 0) : Color))]
      lithcnt := 9000 }

/-- Fill from slave where master is background: the fancy-index
assignment master.lith_index[master.lith_index == 0] = slave values. -/
def gridFillZero (gm gs : Grid3) : Grid3 :=
  fun i j k => if gm i j k = 0 then gs i j k else gm i j k

/-- Shift the temporary indices back down:
lith_index[lith_index > 9000] -= 9000. -/
def gridShift9000 (g : Grid3) : Grid3 :=
  fun i j k => if 9000 < g i j k then g i j k - 9000 else g i j k

/-- One turn of acceptall's final copy loop: a slave catalogue entry
whose name the master lacks is copied across together with its colour,
looked up in the slave's (never-replaced) old colour table at the new
index. -/
def copyStep (slavemlut : List (Int × Color)) (ms : LithModel)
    (p : String × GeoData) : LithModel :=
  match alookup ms.lith_list p.1 with
  | some _ => ms
  | none =>
      { ms with
        lith_list := dinsert ms.lith_list p.1 p.2
        mlut := dinsert ms.mlut p.2.lith_index
          ((alookup slavemlut p.2.lith_index).getD ((0, 0, 0) : Color)) }

/-- The final copy loop of acceptall over the slave's catalogue. -/
def copySlaveLiths (sl ms : LithModel) : LithModel :=
  sl.lith_list.foldl (copyStep sl.mlut) ms

/-- The model-merging part of MergeMod3D.acceptall of pygmi/pfmod/misc.py
(lines 400-476): union extents, whitelisted raster blending, resize of
both models, relabeling through the +9000 offset, background fill from
the slave, the shift back down, and the copy of slave-only lithologies.
Returns the merged master and the post-call state of the slave object,
which the routine mutates in place. -/
def mergeModels (rp : ReprojFn) (order : List String)
    (dm ds : LithModel) : LithModel × LithModel :=
  (copySlaveLiths (mergeState rp order dm ds).slave
     { (mergeState rp order dm ds).master with
       mlut := (mergeState rp order dm ds).newmlut
       lith_index := gridShift9000
         (gridFillZero (mergeState rp order dm ds).master.lith_index
           (mergeState rp order dm ds).slave.lith_index) },
   (mergeState rp order dm ds).slave)

theorem pyfdiv_nat_mul (n : Nat) (s : ℚ) (hs : 0 < s) :
    pyfdiv ((n : ℚ) * s) s = (n : Int) := by
  unfold pyfdiv
  rw [mul_div_assoc, div_self (ne_of_gt hs), mul_one]
  exact_mod_cast Int.floor_natCast n

theorem unionRange_sorted (a b c d : ℚ) (hab : a ≤ b) (hcd : c ≤ d) :
    unionRange (a, b) (c, d) = (min a c, max b d) := by
  unfold unionRange
  rw [min_eq_left hab, min_eq_left hcd, max_eq_right hab, max_eq_right hcd]

theorem update_numx (m : LithModel) (cols rows layers : Int)
    (utlx utly utlz dxy d_z : ℚ) :
    (update m cols rows layers utlx utly utlz dxy d_z).numx = cols := rfl

theorem update_numy (m : LithModel) (cols rows layers : Int)
    (utlx utly utlz dxy d_z : ℚ) :
    (update m cols rows layers utlx utly utlz dxy d_z).numy = rows := rfl

theorem update_numz (m : LithModel) (cols rows layers : Int)
    (utlx utly utlz dxy d_z : ℚ) :
    (update m cols rows layers utlx utly utlz dxy d_z).numz = layers := rfl

theorem update_dxy (m : LithModel) (cols rows layers : Int)
    (utlx utly utlz dxy d_z : ℚ) :
    (update m cols rows layers utlx utly utlz dxy d_z).dxy = dxy := rfl

theorem update_d_z (m : LithModel) (cols rows layers : Int)
    (utlx utly utlz dxy d_z : ℚ) :
    (update m cols rows layers utlx utly utlz dxy d_z).d_z = d_z := rfl

theorem update_xrange (m : LithModel) (cols rows layers : Int)
    (utlx utly utlz dxy d_z : ℚ) :
    (update m cols rows layers utlx utly utlz dxy d_z).xrange
      = (utlx, utlx + cols * dxy) := rfl

theorem update_yrange (m : LithModel) (cols rows layers : Int)
    (utlx utly utlz dxy d_z : ℚ) :
    (update m cols rows layers utlx utly utlz dxy d_z).yrange
      = (utly - rows * dxy, utly) := rfl

theorem update_zrange (m : LithModel) (cols rows layers : Int)
    (utlx utly utlz dxy d_z : ℚ) :
    (update m cols rows layers utlx utly utlz dxy d_z).zrange
      = (utlz - layers * d_z, utlz) := rfl

theorem update_mlut (m : LithModel) (cols rows layers : Int)
    (utlx utly utlz dxy d_z : ℚ) :
    (update m cols rows layers utlx utly utlz dxy d_z).mlut = m.mlut := rfl

theorem update_griddata (m : LithModel) (cols rows layers : Int)
    (utlx utly utlz dxy d_z : ℚ) :
    (update m cols rows layers utlx utly utlz dxy d_z).griddata
      = m.griddata := rfl

theorem relabelStep_bg (st : MergeState) : relabelStep st "Background" = st := by
  simp [relabelStep]

/-- The relabeling loop touches only the two grids, the two catalogues,
the replacement colour table and the counter: every other field of the
slave model comes through unchanged. -/
theorem relabelFold_slave (order : List String) (st : MergeState) :
    (order.foldl relabelStep st).slave.numx = st.slave.numx
  ∧ (order.foldl relabelStep st).slave.numy = st.slave.numy
  ∧ (order.foldl relabelStep st).slave.numz = st.slave.numz
  ∧ (order.foldl relabelStep st).slave.dxy = st.slave.dxy
  ∧ (order.foldl relabelStep st).slave.d_z = st.slave.d_z
  ∧ (order.foldl relabelStep st).slave.xrange = st.slave.xrange
  ∧ (order.foldl relabelStep st).slave.yrange = st.slave.yrange
  ∧ (order.foldl relabelStep st).slave.zrange = st.slave.zrange
  ∧ (order.foldl relabelStep st).slave.griddata = st.slave.griddata
  ∧ (order.foldl relabelStep st).slave.mlut = st.slave.mlut := by
  refine foldl_preserves (fun q =>
      q.slave.numx = st.slave.numx ∧ q.slave.numy = st.slave.numy
    ∧ q.slave.numz = st.slave.numz ∧ q.slave.dxy = st.slave.dxy
    ∧ q.slave.d_z = st.slave.d_z ∧ q.slave.xrange = st.slave.xrange
    ∧ q.slave.yrange = st.slave.yrange ∧ q.slave.zrange = st.slave.zrange
    ∧ q.slave.griddata = st.slave.griddata ∧ q.slave.mlut = st.slave.mlut)
    relabelStep ?_ order st ⟨rfl, rfl, rfl, rfl, rfl, rfl, rfl, rfl, rfl, rfl⟩
  intro s a hs
  by_cases hb : a = "Background"
  · simpa [relabelStep, hb] using hs
  · simp only [relabelStep, if_neg hb]
    cases h1 : alookup s.slave.lith_list a <;>
      cases h2 : alookup s.master.lith_list a <;>
      simp only [h1, h2] <;> exact hs

/-- The master model's untouched fields likewise survive the relabeling
loop. -/
theorem relabelFold_master (order : List String) (st : MergeState) :
    (order.foldl relabelStep st).master.numx = st.master.numx
  ∧ (order.foldl relabelStep st).master.numy = st.master.numy
  ∧ (order.foldl relabelStep st).master.numz = st.master.numz
  ∧ (order.foldl relabelStep st).master.dxy = st.master.dxy
  ∧ (order.foldl relabelStep st).master.d_z = st.master.d_z
  ∧ (order.foldl relabelStep st).master.xrange = st.master.xrange
  ∧ (order.foldl relabelStep st).master.yrange = st.master.yrange
  ∧ (order.foldl relabelStep st).master.zrange = st.master.zrange
  ∧ (order.foldl relabelStep st).master.griddata = st.master.griddata := by
  refine foldl_preserves (fun q =>
      q.master.numx = st.master.numx ∧ q.master.numy = st.master.numy
    ∧ q.master.numz = st.master.numz ∧ q.master.dxy = st.master.dxy
    ∧ q.master.d_z = st.master.d_z ∧ q.master.xrange = st.master.xrange
    ∧ q.master.yrange = st.master.yrange ∧ q.master.zrange = st.master.zrange
    ∧ q.master.griddata = st.master.griddata)
    relabelStep ?_ order st ⟨rfl, rfl, rfl, rfl, rfl, rfl, rfl, rfl, rfl⟩
  intro s a hs
  by_cases hb : a = "Background"
  · simpa [relabelStep, hb] using hs
  · simp only [relabelStep, if_neg hb]
    cases h1 : alookup s.slave.lith_list a <;>
      cases h2 : alookup s.master.lith_list a <;>
      simp only [h1, h2] <;> exact hs

theorem mergeModels_snd (rp : ReprojFn) (order : List String)
    (dm ds : LithModel) :
    (mergeModels rp order dm ds).2 = (mergeState rp order dm ds).slave := rfl

theorem mergeState_run (rp : ReprojFn) (order : List String)
    (dm ds : LithModel) :
    mergeState rp order dm ds = order.foldl relabelStep
      { master := (mergeUpdated rp dm ds).1
        slave := (mergeUpdated rp dm ds).2
        newmlut := [(0, (alookup (mergeUpdated rp dm ds).1.mlut 0).getD
          ((0, 0, 0) : Color))]
        lithcnt := 9000 } := rfl

theorem mergeUpdated_snd (rp : ReprojFn) (dm ds : LithModel) :
    (mergeUpdated rp dm ds).2 =
      update { ds with griddata :=
          (mergeGriddata rp (unionRange dm.xrange ds.xrange)
            (unionRange dm.yrange ds.yrange) dm.griddata ds.griddata).2 }
        (unionCols dm ds) (unionRows dm ds) (unionLayers dm ds)
        (unionRange dm.xrange ds.xrange).1 (unionRange dm.yrange ds.yrange).2
        (unionRange dm.zrange ds.zrange).2 dm.dxy dm.d_z := rfl

theorem alookup_dupdate_eq {α β : Type} [DecidableEq α] (l : List (α × β))
    (k : α) (f : β → β) :
    alookup (dupdate l k f) k = (alookup l k).map f := by
  induction l with
  | nil => rfl
  | cons p t ih =>
      by_cases hp : p.1 = k
      · simp only [dupdate, List.map_cons] at ih ⊢
        rw [if_pos hp]
        simp [alookup, hp.symm]
      · have hk : k ≠ p.1 := fun he => hp he.symm
        simp only [dupdate, List.map_cons] at ih ⊢
        rw [if_neg hp]
        simp [alookup, hk, ih]

theorem alookup_dinsert_self {α β : Type} [DecidableEq α] (l : List (α × β))
    (k : α) (v : β) : alookup (dinsert l k v) k = some v := by
  induction l with
  | nil => simp [dinsert, alookup]
  | cons p t ih =>
      by_cases hp : k = p.1
      · simp [dinsert, hp, alookup]
      · simp [dinsert, hp, alookup, ih]

theorem alookup_dinsert_ne {α β : Type} [DecidableEq α] (l : List (α × β))
    (k k' : α) (v : β) (h : k' ≠ k) :
    alookup (dinsert l k v) k' = alookup l k' := by
  induction l with
  | nil => simp [dinsert, alookup, h]
  | cons p t ih =>
      by_cases hp : k = p.1
      · subst hp
        simp only [dinsert, if_pos rfl, alookup]
        rw [if_neg (fun hk => h hk)]
        rw [if_neg (fun hk => h hk)]
      · simp only [dinsert, if_neg hp, alookup]
        by_cases hk : k' = p.1
        · rw [if_pos hk, if_pos hk]
        · rw [if_neg hk, if_neg hk, ih]

/-- A background catalogue entry (index 0, the GeoData defaults). -/
def exGdB : GeoData := {}

/-- A lithology catalogue entry holding internal index 1. -/
def exGdX : GeoData := { lith_index := 1 }

theorem gmerge_snd_snd (rp : ReprojFn) (m s : Raster2D) (xr yr : ℚ × ℚ) :
    (gmerge rp m s (some xr) (some yr)).2.2 = (gmergeShift s).1 := rfl

/-- C6 (amended): the merge does not leave the slave read-only: beyond
the catalogue re-indexing, datslave.update overwrites the slave's
dimensions and extents with the union-grid values derived from both
models, and the whitelisted raster layers the slave shares with the
master are left in their gmerge-mutated in-place state (shifted values,
zero refill, nullvalue 0) under the slave's own griddata keys. -/
theorem mergeModels_slave_not_readonly (rp : ReprojFn) (order : List String)
    (master slave : LithModel) :
    (mergeModels rp order master slave).2.numx = unionCols master slave
  ∧ (mergeModels rp order master slave).2.numy = unionRows master slave
  ∧ (mergeModels rp order master slave).2.numz = unionLayers master slave
  ∧ (mergeModels rp order master slave).2.dxy = master.dxy
  ∧ (mergeModels rp order master slave).2.d_z = master.d_z
  ∧ (mergeModels rp order master slave).2.xrange
      = ((unionRange master.xrange slave.xrange).1,
         (unionRange master.xrange slave.xrange).1
           + unionCols master slave * master.dxy)
  ∧ (mergeModels rp order master slave).2.yrange
      = ((unionRange master.yrange slave.yrange).2
           - unionRows master slave * master.dxy,
         (unionRange master.yrange slave.yrange).2)
  ∧ (mergeModels rp order master slave).2.zrange
      = ((unionRange master.zrange slave.zrange).2
           - unionLayers master slave * master.d_z,
         (unionRange master.zrange slave.zrange).2)
  ∧ (mergeModels rp order master slave).2.griddata
      = (mergeGriddata rp (unionRange master.xrange slave.xrange)
          (unionRange master.yrange slave.yrange)
          master.griddata slave.griddata).2 := by
  refine ⟨?_, ?_, ?_, ?_, ?_, ?_, ?_, ?_, ?_⟩ <;>
    rw [mergeModels_snd, mergeState_run]
  · rw [(relabelFold_slave _ _).1]
    show (mergeUpdated rp master slave).2.numx = _
    rw [mergeUpdated_snd, update_numx]
  · rw [(relabelFold_slave _ _).2.1]
    show (mergeUpdated rp master slave).2.numy = _
    rw [mergeUpdated_snd, update_numy]
  · rw [(relabelFold_slave _ _).2.2.1]
    show (mergeUpdated rp master slave).2.numz = _
    rw [mergeUpdated_snd, update_numz]
  · rw [(relabelFold_slave _ _).2.2.2.1]
    show (mergeUpdated rp master slave).2.dxy = _
    rw [mergeUpdated_snd, update_dxy]
  · rw [(relabelFold_slave _ _).2.2.2.2.1]
    show (mergeUpdated rp master slave).2.d_z = _
    rw [mergeUpdated_snd, update_d_z]
  · rw [(relabelFold_slave _ _).2.2.2.2.2.1]
    show (mergeUpdated rp master slave).2.xrange = _
    rw [mergeUpdated_snd, update_xrange]
  · rw [(relabelFold_slave _ _).2.2.2.2.2.2.1]
    show (mergeUpdated rp master slave).2.yrange = _
    rw [mergeUpdated_snd, update_yrange]
  · rw [(relabelFold_slave _ _).2.2.2.2.2.2.2.1]
    show (mergeUpdated rp master slave).2.zrange = _
    rw [mergeUpdated_snd, update_zrange]
  · rw [(relabelFold_slave _ _).2.2.2.2.2.2.2.2.1]
    show (mergeUpdated rp master slave).2.griddata = _
    rw [mergeUpdated_snd, update_griddata]

/-- A slave raster layer whose no-data sentinel is the 1e20 fill. -/
def exR6s : Raster2D :=
  { vals := fun _ _ => 3, msk := fun _ _ => false, nullvalue := bigNull
    tlx := 0, tly := 2, xdim := 1, ydim := 1, cols := 2, rows := 2
    wkt := "w", dataid := "Gravity Dataset" }

/-- The matching master raster layer on a wider footprint. -/
def exR6m : Raster2D :=
  { vals := fun _ _ => 5, msk := fun _ _ => false, nullvalue := bigNull
    tlx := 0, tly := 4, xdim := 1, ydim := 1, cols := 4, rows := 4
    wkt := "w", dataid := "Gravity Dataset" }

/-- A 4x4x4 master model whose extent strictly contains the slave's. -/
def exM6 : LithModel :=
  { numx := 4, numy := 4, numz := 4, dxy := 1, d_z := 1
    xrange := (0, 4), yrange := (0, 4), zrange := (0, 4)
    lith_list := [("Background", exGdB)]
    mlut := [(0, ((0, 0, 0) : Color))]
    griddata := [("Gravity Dataset", exR6m)] }

/-- A 2x2x2 slave model sharing a whitelisted raster with the master. -/
def exS6 : LithModel :=
  { numx := 2, numy := 2, numz := 2, dxy := 1, d_z := 1
    xrange := (0, 2), yrange := (0, 2), zrange := (0, 2)
    lith_list := [("Background", exGdB)]
    mlut := [(0, ((0, 0, 0) : Color))]
    griddata := [("Gravity Dataset", exR6s)] }

/-- C6 counterexample: merging a 4-wide master with a 2-wide slave leaves
the slave object with numx = 4 (its dimensions overwritten with the union
grid's), and the slave's own Gravity Dataset raster entry mutated to
nullvalue 0, where it was 1e20 before the call: the slave is not
read-only input. -/
theorem mergeModels_slave_mutation_counterexample :
    (mergeModels idReproj ["Background"] exM6 exS6).2.numx = 4
  ∧ exS6.numx = 2
  ∧ (∃ r, alookup (mergeModels idReproj ["Background"] exM6
      exS6).2.griddata "Gravity Dataset" = some r ∧ r.nullvalue = 0)
  ∧ exR6s.nullvalue = bigNull ∧ (bigNull : ℚ) ≠ 0 := by
  have hux : unionRange exM6.xrange exS6.xrange = (0, 4) := by
    norm_num [unionRange, exM6, exS6]
  have huy : unionRange exM6.yrange exS6.yrange = (0, 4) := by
    norm_num [unionRange, exM6, exS6]
  have hcols : unionCols exM6 exS6 = 4 := by
    unfold unionCols
    rw [hux]
    show pyfdiv ((4 : ℚ) - 0) exM6.dxy = 4
    rw [show ((4 : ℚ) - 0) = ((4 : Nat) : ℚ) * exM6.dxy by
      norm_num [exM6]]
    rw [pyfdiv_nat_mul 4 exM6.dxy (by norm_num [exM6])]
    norm_num
  have hgg : (mergeModels idReproj ["Background"] exM6 exS6).2.griddata
      = (mergeGriddata idReproj (unionRange exM6.xrange exS6.xrange)
          (unionRange exM6.yrange exS6.yrange)
          exM6.griddata exS6.griddata).2 := by
    rw [mergeModels_snd, mergeState_run]
    simp only [List.foldl_cons, List.foldl_nil, relabelStep_bg]
    show (mergeUpdated idReproj exM6 exS6).2.griddata = _
    rw [mergeUpdated_snd, update_griddata]
  have hstep : (mergeGriddata idReproj (unionRange exM6.xrange exS6.xrange)
      (unionRange exM6.yrange exS6.yrange)
      exM6.griddata exS6.griddata).2
      = dinsert exS6.griddata "Gravity Dataset"
          ((gmergeShift exR6s).1) := by
    show (List.foldl (mergeRasterStep idReproj _ _)
      (exM6.griddata, exS6.griddata) (dkeys exM6.griddata)).2 = _
    rw [show dkeys exM6.griddata = ["Gravity Dataset"] from rfl]
    rw [List.foldl_cons, List.foldl_nil]
    rw [show mergeRasterStep idReproj
        (unionRange exM6.xrange exS6.xrange)
        (unionRange exM6.yrange exS6.yrange)
        (exM6.griddata, exS6.griddata) "Gravity Dataset"
      = (dinsert exM6.griddata "Gravity Dataset"
          (gmerge idReproj exR6m exR6s
            (some (unionRange exM6.xrange exS6.xrange))
            (some (unionRange exM6.yrange exS6.yrange))).1,
         dinsert exS6.griddata "Gravity Dataset"
          (gmerge idReproj exR6m exR6s
            (some (unionRange exM6.xrange exS6.xrange))
            (some (unionRange exM6.yrange exS6.yrange))).2.2) from by
      rw [mergeRasterStep, if_pos (by decide)]
      rfl]
    rw [gmerge_snd_snd]
  refine ⟨?_, rfl, ⟨(gmergeShift exR6s).1, ?_, rfl⟩, rfl, by
    norm_num [bigNull]⟩
  · rw [mergeModels_snd, mergeState_run]
    simp only [List.foldl_cons, List.foldl_nil, relabelStep_bg]
    show (mergeUpdated idReproj exM6 exS6).2.numx = 4
    rw [mergeUpdated_snd, update_numx, hcols]
  · rw [hgg, hstep, alookup_dinsert_self]

/-- A value stored in the npz output dictionary: the model's scalars,
grids, ranges, tables and key list, as lmod2dict writes them. -/
inductive MVal
  | q (v : ℚ)
  | i (v : Int)
  | grid (g : Grid3)
  | pair (p : ℚ × ℚ)
  | mlut (m : List (Int × Color))
  | gdd (g : List (String × Raster2D))
  | cpf (c : List (Int × (ℚ × ℚ)))
  | keys (l : List String)

/-- The 21 per-lithology entries lmod2dict writes under name-prefixed
keys (the source assigns _zobsm twice with the same value; the dict
holds it once). -/
def lithEntries (pre n : String) (gd : GeoData) : List (String × MVal) :=
  [(pre ++ n ++ "_hintn", MVal.q gd.hintn),
   (pre ++ n ++ "_finc", MVal.q gd.finc),
   (pre ++ n ++ "_fdec", MVal.q gd.fdec),
   (pre ++ n ++ "_zobsm", MVal.q gd.zobsm),
   (pre ++ n ++ "_susc", MVal.q gd.susc),
   (pre ++ n ++ "_mstrength", MVal.q gd.mstrength),
   (pre ++ n ++ "_qratio", MVal.q gd.qrat),
   (pre ++ n ++ "_minc", MVal.q gd.minc),
   (pre ++ n ++ "_mdec", MVal.q gd.mdec),
   (pre ++ n ++ "_density", MVal.q gd.density),
   (pre ++ n ++ "_bdensity", MVal.q gd.bdensity),
   (pre ++ n ++ "_lith_index", MVal.i gd.lith_index),
   (pre ++ n ++ "_numx", MVal.i gd.g_cols),
   (pre ++ n ++ "_numy", MVal.i gd.g_rows),
   (pre ++ n ++ "_numz", MVal.i gd.numz),
   (pre ++ n ++ "_dxy", MVal.q gd.g_dxy),
   (pre ++ n ++ "_d_z", MVal.q gd.d_z),
   (pre ++ n ++ "_zobsg", MVal.q gd.zobsg),
   (pre ++ n ++ "_x12", MVal.pair gd.x12),
   (pre ++ n ++ "_y12", MVal.pair gd.y12),
   (pre ++ n ++ "_z12", MVal.pair gd.z12)]

/-- The lmod2dict routine of pygmi/pfmod/iodefs.py: the model's fields
under fixed keys, the catalogue names under lithkeys, and the prefixed
per-lithology entries, in the source's insertion order.  Distinct
lithology names yield distinct keys because every field suffix starts
with an underscore and none is a suffix of another. -/
def lmod2dict (m : LithModel) (pre : String) : List (String × MVal) :=
  [(pre ++ "gregional", MVal.q m.gregional),
   (pre ++ "ght", MVal.q m.ght),
   (pre ++ "mht", MVal.q m.mht),
   (pre ++ "numx", MVal.i m.numx),
   (pre ++ "numy", MVal.i m.numy),
   (pre ++ "numz", MVal.i m.numz),
   (pre ++ "dxy", MVal.q m.dxy),
   (pre ++ "d_z", MVal.q m.d_z),
   (pre ++ "lith_index", MVal.grid m.lith_index),
   (pre ++ "xrange", MVal.pair m.xrange),
   (pre ++ "yrange", MVal.pair m.yrange),
   (pre ++ "zrange", MVal.pair m.zrange),
   (pre ++ "mlut", MVal.mlut m.mlut),
   (pre ++ "griddata", MVal.gdd m.griddata),
   (pre ++ "custprofx", MVal.cpf m.custprofx),
   (pre ++ "custprofy", MVal.cpf m.custprofy),
   (pre ++ "lithkeys", MVal.keys (dkeys m.lith_list))]
  ++ m.lith_list.flatMap (fun p => lithEntries pre p.1 p.2)

/-- Read a rational scalar from the dictionary; a missing key is the
KeyError np.asscalar(indict[...]) would raise. -/
def getQ (d : List (String × MVal)) (k : String) : Except PyErr ℚ :=
  match alookup d k with
  | some (MVal.q v) => Except.ok v
  | _ => Except.error PyErr.keyError

/-- Read an integer scalar from the dictionary. -/
def getI (d : List (String × MVal)) (k : String) : Except PyErr Int :=
  match alookup d k with
  | some (MVal.i v) => Except.ok v
  | _ => Except.error PyErr.keyError

/-- Read the lithology grid from the dictionary. -/
def getGrid (d : List (String × MVal)) (k : String) : Except PyErr Grid3 :=
  match alookup d k with
  | some (MVal.grid g) => Except.ok g
  | _ => Except.error PyErr.keyError

/-- Read an extent pair from the dictionary. -/
def getPair (d : List (String × MVal)) (k : String) : Except PyErr (ℚ × ℚ) :=
  match alookup d k with
  | some (MVal.pair p) => Except.ok p
  | _ => Except.error PyErr.keyError

/-- Read the colour table from the dictionary. -/
def getMlut (d : List (String × MVal)) (k : String) :
    Except PyErr (List (Int × Color)) :=
  match alookup d k with
  | some (MVal.mlut m) => Except.ok m
  | _ => Except.error PyErr.keyError

/-- Read the raster dictionary from the dictionary. -/
def getGdd (d : List (String × MVal)) (k : String) :
    Except PyErr (List (String × Raster2D)) :=
  match alookup d k with
  | some (MVal.gdd g) => Except.ok g
  | _ => Except.error PyErr.keyError

/-- Read a custom profile table out of a present dictionary value. -/
def getCpfV (v : MVal) : Except PyErr (List (Int × (ℚ × ℚ))) :=
  match v with
  | MVal.cpf c => Except.ok c
  | _ => Except.error PyErr.keyError

/-- Read the lithology key list from the dictionary. -/
def getKeys (d : List (String × MVal)) (k : String) :
    Except PyErr (List String) :=
  match alookup d k with
  | some (MVal.keys l) => Except.ok l
  | _ => Except.error PyErr.keyError

/-- The legacy-name cleanup of dict2lmod: a layer carrying the old
bandid attribute has it copied into an empty dataid and deleted. -/
def bandidFix (r : Raster2D) : Raster2D :=
  match r.bandid with
  | some b => { r with dataid := if r.dataid = "" then b else r.dataid
                       bandid := none }
  | none => r

/-- Map over the values of an association list, keys unchanged. -/
def dmapv {α β : Type} (f : β → β) (l : List (α × β)) : List (α × β) :=
  l.map (fun p => (p.1, f p.2))

/-- The spatial-reference scan of dict2lmod: wktfin is overwritten by
every non-empty wkt encountered, so it ends holding the LAST non-empty
one. -/
def wktLast (l : List (String × Raster2D)) : Option String :=
  l.foldl (fun acc p => if p.2.wkt = "" then acc else some p.2.wkt) none

/-- The backfill pass of dict2lmod: when some layer carries a non-empty
spatial reference, every empty one is overwritten with wktfin. -/
def wktBackfill (l : List (String × Raster2D)) :
    List (String × Raster2D) :=
  match wktLast l with
  | none => l
  | some w => l.map (fun p =>
      if p.2.wkt = "" then (p.1, { p.2 with wkt := w }) else p)

/-- One lithology read of dict2lmod: the 18 stored numeric fields into a
fresh GeoData, modified forced to True, and set_xyz12 recomputing the
x12/y12/z12 box - the stored _x12/_y12/_z12 values are never read. -/
def readLith (pre : String) (d : List (String × MVal)) (n : String) :
    Except PyErr GeoData := do
  let hintn ← getQ d (pre ++ n ++ "_hintn")
  let finc ← getQ d (pre ++ n ++ "_finc")
  let fdec ← getQ d (pre ++ n ++ "_fdec")
  let zobsm ← getQ d (pre ++ n ++ "_zobsm")
  let susc ← getQ d (pre ++ n ++ "_susc")
  let mstrength ← getQ d (pre ++ n ++ "_mstrength")
  let qrat ← getQ d (pre ++ n ++ "_qratio")
  let minc ← getQ d (pre ++ n ++ "_minc")
  let mdec ← getQ d (pre ++ n ++ "_mdec")
  let density ← getQ d (pre ++ n ++ "_density")
  let bdensity ← getQ d (pre ++ n ++ "_bdensity")
  let lidx ← getI d (pre ++ n ++ "_lith_index")
  let gcols ← getI d (pre ++ n ++ "_numx")
  let grows ← getI d (pre ++ n ++ "_numy")
  let gnumz ← getI d (pre ++ n ++ "_numz")
  let gdxy ← getQ d (pre ++ n ++ "_dxy")
  let gdz ← getQ d (pre ++ n ++ "_d_z")
  let zobsg ← getQ d (pre ++ n ++ "_zobsg")
  Except.ok (setXyz12
    { hintn := hintn, finc := finc, fdec := fdec, zobsm := zobsm
      susc := susc, mstrength := mstrength, qrat := qrat, minc := minc
      mdec := mdec, density := density, bdensity := bdensity
      lith_index := lidx, g_cols := gcols, g_rows := grows, numz := gnumz
      g_dxy := gdxy, d_z := gdz, zobsg := zobsg, modified := true })

/-- The lithology loop of dict2lmod over lithkeys, starting from the
Background entry it synthesises unconditionally before the loop. -/
def dict2lmodLiths (pre : String) (d : List (String × MVal)) :
    List String → List (String × GeoData) →
    Except PyErr (List (String × GeoData))
  | [], acc => Except.ok acc
  | n :: t, acc => do
      let gd ← readLith pre d n
      dict2lmodLiths pre d t (dinsert acc n gd)

/-- The dict2lmod routine of pygmi/pfmod/iodefs.py, reading the
dictionary back into the importer's fresh model m0.  The
init_calc_grids() call is omitted: its griddata additions are
overwritten wholesale by the stored griddata on the next line of the
source. -/
def dict2lmod (m0 : LithModel) (pre : String)
    (d : List (String × MVal)) : Except PyErr LithModel := do
  let lithkeys ← getKeys d (pre ++ "lithkeys")
  let greg ← getQ d (pre ++ "gregional")
  let ght ← getQ d (pre ++ "ght")
  let mht ← getQ d (pre ++ "mht")
  let nx ← getI d (pre ++ "numx")
  let ny ← getI d (pre ++ "numy")
  let nz ← getI d (pre ++ "numz")
  let dxy ← getQ d (pre ++ "dxy")
  let d_z ← getQ d (pre ++ "d_z")
  let li ← getGrid d (pre ++ "lith_index")
  let xr ← getPair d (pre ++ "xrange")
  let yr ← getPair d (pre ++ "yrange")
  let zr ← getPair d (pre ++ "zrange")
  let cpx ← match alookup d (pre ++ "custprofx") with
    | some v => getCpfV v
    | none => Except.ok [((0 : Int), (xr.1, xr.2))]
  let cpy ← match alookup d (pre ++ "custprofy") with
    | some v => getCpfV v
    | none => Except.ok [((0 : Int), (yr.1, yr.1))]
  let ml ← getMlut d (pre ++ "mlut")
  let gdd ← getGdd d (pre ++ "griddata")
  let ll ← dict2lmodLiths pre d lithkeys [("Background", ({} : GeoData))]
  Except.ok { m0 with
    gregional := greg, ght := ght, mht := mht
    numx := nx, numy := ny, numz := nz, dxy := dxy, d_z := d_z
    lith_index := li, curprof := 0, curlayer := 0
    xrange := xr, yrange := yr, zrange := zr
    custprofx := cpx, custprofy := cpy, mlut := ml
    griddata := wktBackfill (dmapv bandidFix gdd)
    lith_list := ll }

/-- What decode makes of a stored catalogue entry: the numeric fields
kept, modified forced on, the cached box recomputed. -/
def reLith (gd : GeoData) : GeoData :=
  setXyz12 { gd with modified := true, x12 := (0, 0), y12 := (0, 0)
                     z12 := (0, 0) }

/-- Catalogue observation on a decode result. -/
def decodedLith (r : Except PyErr LithModel) (n : String) :
    Option GeoData :=
  match r with
  | Except.ok m' => alookup m'.lith_list n
  | Except.error _ => none

/-- Raster observation on a decode result. -/
def decodedRaster (r : Except PyErr LithModel) (k : String) :
    Option Raster2D :=
  match r with
  | Except.ok m' => alookup m'.griddata k
  | Except.error _ => none

theorem dict2lmod_lmod2dict (m : LithModel) (gdB gdA : GeoData)
    (hll : m.lith_list = [("Background", gdB), ("Granite", gdA)]) :
    dict2lmod {} "" (lmod2dict m "") = Except.ok
      { ({} : LithModel) with
        gregional := m.gregional, ght := m.ght, mht := m.mht
        numx := m.numx, numy := m.numy, numz := m.numz
        dxy := m.dxy, d_z := m.d_z
        lith_index := m.lith_index, curprof := 0, curlayer := 0
        xrange := m.xrange, yrange := m.yrange, zrange := m.zrange
        custprofx := m.custprofx, custprofy := m.custprofy
        mlut := m.mlut
        griddata := wktBackfill (dmapv bandidFix m.griddata)
        lith_list := [("Background", reLith gdB),
                      ("Granite", reLith gdA)] } := by
  simp only [lmod2dict, hll]
  rfl

theorem alookup_dmapv {α β : Type} [DecidableEq α] (f : β → β)
    (l : List (α × β)) (k : α) :
    alookup (dmapv f l) k = (alookup l k).map f := by
  induction l with
  | nil => rfl
  | cons p t ih =>
      simp only [dmapv, List.map_cons, alookup]
      by_cases hk : k = p.1
      · rw [if_pos hk, if_pos hk]
        rfl
      · rw [if_neg hk, if_neg hk]
        exact ih

theorem bandidFix_keeps (r : Raster2D) :
    (bandidFix r).vals = r.vals ∧ (bandidFix r).msk = r.msk
  ∧ (bandidFix r).nullvalue = r.nullvalue ∧ (bandidFix r).wkt = r.wkt := by
  unfold bandidFix
  cases r.bandid <;> exact ⟨rfl, rfl, rfl, rfl⟩

theorem wktBackfill_eq_dmapv (l : List (String × Raster2D)) (w : String)
    (h : wktLast l = some w) :
    wktBackfill l
      = dmapv (fun s => if s.wkt = "" then { s with wkt := w } else s) l := by
  unfold wktBackfill
  rw [h]
  unfold dmapv
  refine List.map_congr_left fun p _ => ?_
  by_cases hc : p.2.wkt = "" <;> simp [hc]

theorem wktBackfill_none (l : List (String × Raster2D))
    (h : wktLast l = none) : wktBackfill l = l := by
  unfold wktBackfill
  rw [h]

theorem wktLast_all_empty (l : List (String × Raster2D))
    (h : ∀ p ∈ l, p.2.wkt = "") :
    ∀ acc : Option String,
      l.foldl (fun acc p => if p.2.wkt = "" then acc else some p.2.wkt) acc
        = acc := by
  induction l with
  | nil => intro acc; rfl
  | cons p t ih =>
      intro acc
      rw [List.foldl_cons, if_pos (h p (List.mem_cons_self p t))]
      exact ih (fun p hp => h p (List.mem_cons_of_mem _ hp)) acc

/-- C2 (amended): decode of encode reproduces the claimed scalar fields,
the lithology grid, the colour table, the custom profile anchors, the
numeric per-lithology fields and every raster's data array exactly; but
every catalogue entry's modified flag comes back True, its cached
x12/y12/z12 box is recomputed by set_xyz12 (the stored _x12/_y12/_z12
values are never read back), and raster layers come back with the
bandid legacy fixup and the wkt backfill applied, so the round trip is
not field-for-field identity.  Stated for a model whose catalogue is
Background plus one lithology. -/
theorem roundtrip_fields (m : LithModel) (gdB gdA : GeoData)
    (hll : m.lith_list = [("Background", gdB), ("Granite", gdA)]) :
    ∃ m', dict2lmod {} "" (lmod2dict m "") = Except.ok m'
      ∧ m'.gregional = m.gregional ∧ m'.ght = m.ght ∧ m'.mht = m.mht
      ∧ m'.numx = m.numx ∧ m'.numy = m.numy ∧ m'.numz = m.numz
      ∧ m'.dxy = m.dxy ∧ m'.d_z = m.d_z
      ∧ m'.lith_index = m.lith_index
      ∧ m'.xrange = m.xrange ∧ m'.yrange = m.yrange ∧ m'.zrange = m.zrange
      ∧ m'.mlut = m.mlut
      ∧ m'.custprofx = m.custprofx ∧ m'.custprofy = m.custprofy
      ∧ m'.griddata = wktBackfill (dmapv bandidFix m.griddata)
      ∧ (∀ k r, alookup m.griddata k = some r → ∃ r',
          alookup m'.griddata k = some r' ∧ r'.vals = r.vals
          ∧ r'.msk = r.msk ∧ r'.nullvalue = r.nullvalue)
      ∧ m'.lith_list = [("Background", reLith gdB), ("Granite", reLith gdA)]
      ∧ (reLith gdA).hintn = gdA.hintn ∧ (reLith gdA).finc = gdA.finc
      ∧ (reLith gdA).fdec = gdA.fdec ∧ (reLith gdA).zobsm = gdA.zobsm
      ∧ (reLith gdA).susc = gdA.susc
      ∧ (reLith gdA).mstrength = gdA.mstrength
      ∧ (reLith gdA).qrat = gdA.qrat ∧ (reLith gdA).minc = gdA.minc
      ∧ (reLith gdA).mdec = gdA.mdec ∧ (reLith gdA).density = gdA.density
      ∧ (reLith gdA).bdensity = gdA.bdensity
      ∧ (reLith gdA).lith_index = gdA.lith_index
      ∧ (reLith gdA).g_cols = gdA.g_cols
      ∧ (reLith gdA).g_rows = gdA.g_rows ∧ (reLith gdA).numz = gdA.numz
      ∧ (reLith gdA).g_dxy = gdA.g_dxy ∧ (reLith gdA).d_z = gdA.d_z
      ∧ (reLith gdA).zobsg = gdA.zobsg
      ∧ (reLith gdA).modified = true
      ∧ (reLith gdA).x12 = (0, (gdA.g_cols : ℚ) * gdA.g_dxy) := by
  refine ⟨_, dict2lmod_lmod2dict m gdB gdA hll, rfl, rfl, rfl, rfl, rfl,
    rfl, rfl, rfl, rfl, rfl, rfl, rfl, rfl, rfl, rfl, rfl, ?_, rfl,
    rfl, rfl, rfl, rfl, rfl, rfl, rfl, rfl, rfl, rfl, rfl, rfl, rfl,
    rfl, rfl, rfl, rfl, rfl, rfl, rfl⟩
  intro k r h
  show ∃ r', alookup (wktBackfill (dmapv bandidFix m.griddata)) k
    = some r' ∧ _
  have h2 : alookup (dmapv bandidFix m.griddata) k
      = some (bandidFix r) := by
    rw [alookup_dmapv, h]
    rfl
  cases hw : wktLast (dmapv bandidFix m.griddata) with
  | none =>
      rw [wktBackfill_none _ hw]
      obtain ⟨h3, h4, h5, _⟩ := bandidFix_keeps r
      exact ⟨bandidFix r, h2, h3, h4, h5⟩
  | some w =>
      rw [wktBackfill_eq_dmapv _ _ hw, alookup_dmapv, h2]
      obtain ⟨h3, h4, h5, _⟩ := bandidFix_keeps r
      by_cases hc : (bandidFix r).wkt = ""
      · refine ⟨_, rfl, ?_⟩
        simp only [Option.map_some, hc, if_pos]
        exact ⟨h3, h4, h5⟩
      · refine ⟨_, rfl, ?_⟩
        simp only [Option.map_some, if_neg hc]
        exact ⟨h3, h4, h5⟩

/-- A catalogue entry carrying a stale cached box and a cleared
modified flag, to be run through the round trip. -/
def exGdC2 : GeoData := { x12 := (5, 7) }

/-- A model whose catalogue is Background plus Granite. -/
def exC2c : LithModel :=
  { lith_list := [("Background", exGdB), ("Granite", exGdC2)] }

theorem roundtrip_fields_witness :
    ∃ m', dict2lmod {} "" (lmod2dict exC2c "") = Except.ok m'
      ∧ m'.gregional = exC2c.gregional ∧ m'.numx = exC2c.numx
      ∧ m'.lith_index = exC2c.lith_index
      ∧ m'.lith_list = [("Background", reLith exGdB),
                        ("Granite", reLith exGdC2)] := by
  obtain ⟨m', hrun, h1, _, _, h4, hrest⟩ :=
    roundtrip_fields exC2c exGdB exGdC2 rfl
  refine ⟨m', hrun, h1, h4, ?_, ?_⟩
  · exact hrest.2.2.2.2.1
  · exact hrest.2.2.2.2.2.2.2.2.2.2.2.2.2.1

/-- C2 counterexample: a Granite entry stored with modified = False and
cached box x12 = (5, 7) decodes with modified = True and x12 = (0, 1000)
(recomputed from the default 10-column, 100-spacing metadata): decode of
encode does not reproduce every per-lithology field. -/
theorem roundtrip_counterexample :
    (decodedLith (dict2lmod {} "" (lmod2dict exC2c "")) "Granite").map
      (fun g => (g.modified, g.x12)) = some (true, (0, 1000))
  ∧ (alookup exC2c.lith_list "Granite").map
      (fun g => (g.modified, g.x12)) = some (false, (5, 7)) := by
  constructor
  · rw [dict2lmod_lmod2dict exC2c exGdB exGdC2 rfl]
    simp only [decodedLith]
    rw [show alookup [("Background", reLith exGdB),
      ("Granite", reLith exGdC2)] "Granite" = some (reLith exGdC2) from by
      simp [alookup]]
    norm_num [reLith, setXyz12, exGdC2]
  · simp [exC2c, alookup, exGdC2]

/-- C9 (amended): during decode, if at least one stored layer carries a
non-empty spatial-reference string, every layer with an empty one is
assigned the LAST non-empty value found among the layers in storage
order - wktfin is overwritten at each non-empty layer - not the first;
layers that already have a non-empty spatial reference keep it, and with
no non-empty layer the pass changes nothing. -/
theorem dict2lmod_wkt_backfill (l1 l2 : List (String × Raster2D))
    (k : String) (r : Raster2D) (hr : r.wkt ≠ "")
    (hl2 : ∀ p ∈ l2, p.2.wkt = "") :
    wktLast (l1 ++ (k, r) :: l2) = some r.wkt
  ∧ (∀ (l : List (String × Raster2D)) (w : String), wktLast l = some w →
      wktBackfill l
        = dmapv (fun s => if s.wkt = "" then { s with wkt := w } else s) l)
  ∧ (∀ l : List (String × Raster2D), wktLast l = none → wktBackfill l = l)
  ∧ (∀ (m : LithModel) (gdB gdA : GeoData),
      m.lith_list = [("Background", gdB), ("Granite", gdA)] →
      ∃ m', dict2lmod {} "" (lmod2dict m "") = Except.ok m'
        ∧ m'.griddata = wktBackfill (dmapv bandidFix m.griddata)) := by
  refine ⟨?_, wktBackfill_eq_dmapv, wktBackfill_none, ?_⟩
  · unfold wktLast
    rw [List.foldl_append, List.foldl_cons, if_neg hr]
    exact wktLast_all_empty l2 hl2 (some r.wkt)
  · intro m gdB gdA hll
    exact ⟨_, dict2lmod_lmod2dict m gdB gdA hll, rfl⟩

/-- A raster layer carrying the spatial reference A, stored first. -/
def exRwA : Raster2D :=
  { vals := fun _ _ => 1, msk := fun _ _ => false, nullvalue := 0
    tlx := 0, tly := 1, xdim := 1, ydim := 1, cols := 1, rows := 1
    wkt := "A", dataid := "a" }

/-- A raster layer carrying the spatial reference B, stored second. -/
def exRwB : Raster2D :=
  { vals := fun _ _ => 2, msk := fun _ _ => false, nullvalue := 0
    tlx := 0, tly := 1, xdim := 1, ydim := 1, cols := 1, rows := 1
    wkt := "B", dataid := "b" }

/-- A raster layer with an empty spatial reference, stored last. -/
def exRwC : Raster2D :=
  { vals := fun _ _ => 3, msk := fun _ _ => false, nullvalue := 0
    tlx := 0, tly := 1, xdim := 1, ydim := 1, cols := 1, rows := 1
    wkt := "", dataid := "c" }

/-- A model whose raster layers carry spatial references A, B and empty,
in that storage order. -/
def exC9 : LithModel :=
  { lith_list := [("Background", exGdB), ("Granite", exGdX)]
    griddata := [("a", exRwA), ("b", exRwB), ("c", exRwC)] }

theorem dict2lmod_wkt_backfill_witness :
    wktLast [("a", exRwA), ("b", exRwB), ("c", exRwC)] = some "B"
  ∧ wktBackfill [("a", exRwA), ("b", exRwB), ("c", exRwC)]
      = [("a", exRwA), ("b", exRwB), ("c", { exRwC with wkt := "B" })] := by
  obtain ⟨h1, h2, _, _⟩ := dict2lmod_wkt_backfill [("a", exRwA)]
    [("c", exRwC)] "b" exRwB (by show ¬("B" : String) = ""; decide) (by
      intro p hp
      simp only [List.mem_singleton] at hp
      rw [hp]
      rfl)
  have h1' : wktLast [("a", exRwA), ("b", exRwB), ("c", exRwC)]
      = some "B" := h1
  refine ⟨h1', ?_⟩
  rw [h2 _ _ h1']
  simp [dmapv, exRwA, exRwB, exRwC]

/-- C9 counterexample: stored layers with spatial references A, B and
empty decode with the empty layer backfilled to B, the last non-empty
value, not to A, the first non-empty value the claim requires. -/
theorem dict2lmod_wkt_backfill_counterexample :
    (exC9.griddata.map (fun p => p.2.wkt)) = ["A", "B", ""]
  ∧ (decodedRaster (dict2lmod {} "" (lmod2dict exC9 "")) "c").map
      (fun s => s.wkt) = some "B"
  ∧ ("B" : String) ≠ "A" := by
  refine ⟨by simp [exC9, exRwA, exRwB, exRwC], ?_, by decide⟩
  rw [dict2lmod_lmod2dict exC9 exGdB exGdX rfl]
  simp only [decodedRaster]
  rfl

end Pygmi
